import Mathlib

/-!
Verification development for the Obsidian OpenRouter Provider plugin
(`src/main.ts`, `src/streamManager.ts`, and the unnamed newer revision of
`streamManager.ts` shipped in this repository).

The embedding models:
* the JSON values the code manipulates (`JSON.parse` / `response.json()`),
  including JavaScript truthiness and optional chaining;
* the incremental UTF-8 byte decoder (`TextDecoder("utf-8", {stream:true})`)
  as a byte-at-a-time state machine (WHATWG algorithm);
* the SSE line reassembly and frame parsing of `StreamManager.streamRequest`
  (both revisions), producing the ordered callback trace;
* the JSON single-document fallback mode of the newer revision;
* `OpenRouterProvider.fetchWithRetry` with its 429 / generic backoff policy;
* the favorites list, per-plugin model map, and credential guard of
  `OpenRouterProvider`.

Callbacks are modelled as a trace: the list of callback invocations in the
order the code performs them.
-/

/-- JSON values as produced by `JSON.parse`.  Numbers keep integer part,
fraction digits and exponent separately so that JavaScript truthiness of
numbers (zero vs non-zero) is decided faithfully. -/
inductive Json where
  | null : Json
  | bool (b : Bool) : Json
  | num (i : Int) (frac : List Nat) (ex : Int) : Json
  | str (s : String) : Json
  | arr (elems : List Json) : Json
  | obj (fields : List (String × Json)) : Json

namespace Json

/-- JavaScript truthiness of a JSON value: `null`, `false`, `0` and the empty
string are falsy; every object and array (even empty) is truthy. -/
def truthy : Json → Bool
  | .null => false
  | .bool b => b
  | .num i frac _ => !(i = 0 && frac.all (· = 0))
  | .str s => s ≠ ""
  | .arr _ => true
  | .obj _ => true

/-- String coercion used when a delta field holds a value.  In the source the
raw JavaScript value flows into `fullText += delta.content`; for string fields
(the only case the claims exercise) this is the identity.  Non-string values
are rendered approximately (documented modelling convenience). -/
def toStr : Json → String
  | .null => "null"
  | .bool true => "true"
  | .bool false => "false"
  | .num i _ _ => toString i
  | .str s => s
  | .arr _ => ""
  | .obj _ => "[object Object]"

/-- Whether a JSON value is `null` (property access on `null` throws a
`TypeError` in JavaScript). -/
def isNull : Json → Bool
  | .null => true
  | _ => false

/-- Property access `j.k` on a JSON value (returns `none` for "undefined").
Objects look the field up; every other value has no such own property. -/
def field? : Json → String → Option Json
  | .obj fs, k => (fs.find? (fun p => p.1 = k)).map (·.2)
  | _, _ => none

/-- Index access `j[0]` as used in `choices?.[0]`: arrays yield their head,
objects a field named "0", strings their first character. -/
def idx0? : Json → Option Json
  | .arr xs => xs.head?
  | .obj fs => (fs.find? (fun p => p.1 = "0")).map (·.2)
  | .str s => s.data.head?.map (fun c => .str (String.mk [c]))
  | _ => none

end Json

/-- Optional-chained field access (`o?.k`): undefined propagates. -/
def jsF (o : Option Json) (k : String) : Option Json :=
  o.bind (Json.field? · k)

/-- Optional-chained index access (`o?.[0]`). -/
def jsIdx0 (o : Option Json) : Option Json :=
  o.bind Json.idx0?

/-- Truthiness of a possibly-undefined value (`if (x)`). -/
def jsTruthyO (o : Option Json) : Bool :=
  match o with
  | none => false
  | some j => j.truthy

/-- The string carried by a possibly-undefined JSON value, when it is one. -/
def strOf? : Option Json → Option String
  | some (.str c) => some c
  | _ => none

/-- The idiom `x?.f || ""`: keep the value's string if truthy, else `""`. -/
def jsStrOrEmpty (o : Option Json) : String :=
  match o with
  | none => ""
  | some j => if j.truthy then j.toStr else ""

/-! ### A JSON parser modelling `JSON.parse`

Executable so that concrete streaming bodies can be evaluated.  Follows the
JSON grammar: whitespace is space, tab, newline, carriage return; strings
support the standard escapes including `\uXXXX` (surrogate pairs combined,
lone surrogates replaced as Lean `Char` cannot hold them); numbers are
integer, optional fraction, optional exponent.  A failed parse is `none`,
modelling a thrown `SyntaxError`. -/

def isJsonWs (c : Char) : Bool :=
  c = ' ' || c = '\t' || c = '\n' || c = '\r'

def skipJsonWs : List Char → List Char
  | [] => []
  | c :: cs => if isJsonWs c then skipJsonWs cs else c :: cs

def hexVal? (c : Char) : Option Nat :=
  if '0' ≤ c ∧ c ≤ '9' then some (c.toNat - '0'.toNat)
  else if 'a' ≤ c ∧ c ≤ 'f' then some (c.toNat - 'a'.toNat + 10)
  else if 'A' ≤ c ∧ c ≤ 'F' then some (c.toNat - 'A'.toNat + 10)
  else none

def hex4? : List Char → Option (Nat × List Char)
  | a :: b :: c :: d :: rest => do
    let va ← hexVal? a
    let vb ← hexVal? b
    let vc ← hexVal? c
    let vd ← hexVal? d
    pure (va * 4096 + vb * 256 + vc * 16 + vd, rest)
  | _ => none

/-- Parse the body of a JSON string after the opening quote; `fuel` bounds the
recursion (one unit per consumed character suffices). -/
def parseStringBody : Nat → List Char → Option (List Char × List Char)
  | 0, _ => none
  | _, [] => none
  | fuel + 1, c :: cs =>
    if c = '"' then some ([], cs)
    else if c = '\\' then
      match cs with
      | [] => none
      | e :: cs2 =>
        if e = 'u' then
          match hex4? cs2 with
          | none => none
          | some (u, cs3) =>
            if 0xD800 ≤ u ∧ u ≤ 0xDBFF then
              -- high surrogate: try to combine with a following \uXXXX
              match cs3 with
              | '\\' :: 'u' :: cs4 =>
                match hex4? cs4 with
                | some (u2, cs5) =>
                  if 0xDC00 ≤ u2 ∧ u2 ≤ 0xDFFF then
                    (parseStringBody fuel cs5).map
                      (fun r => (Char.ofNat (0x10000 + (u - 0xD800) * 1024 + (u2 - 0xDC00)) :: r.1, r.2))
                  else
                    (parseStringBody fuel cs3).map (fun r => ('�' :: r.1, r.2))
                | none => (parseStringBody fuel cs3).map (fun r => ('�' :: r.1, r.2))
              | _ => (parseStringBody fuel cs3).map (fun r => ('�' :: r.1, r.2))
            else if 0xDC00 ≤ u ∧ u ≤ 0xDFFF then
              (parseStringBody fuel cs3).map (fun r => ('�' :: r.1, r.2))
            else
              (parseStringBody fuel cs3).map (fun r => (Char.ofNat u :: r.1, r.2))
        else
          let esc? : Option Char :=
            if e = '"' then some '"'
            else if e = '\\' then some '\\'
            else if e = '/' then some '/'
            else if e = 'b' then some '\x08'
            else if e = 'f' then some '\x0c'
            else if e = 'n' then some '\n'
            else if e = 'r' then some '\r'
            else if e = 't' then some '\t'
            else none
          match esc? with
          | none => none
          | some ec => (parseStringBody fuel cs2).map (fun r => (ec :: r.1, r.2))
    else if c.toNat < 0x20 then none
    else (parseStringBody fuel cs).map (fun r => (c :: r.1, r.2))

def digitsOf : List Char → List Nat × List Char
  | [] => ([], [])
  | c :: cs =>
    if '0' ≤ c ∧ c ≤ '9' then
      let r := digitsOf cs
      ((c.toNat - '0'.toNat) :: r.1, r.2)
    else ([], c :: cs)

def natOfDigits (ds : List Nat) : Nat :=
  ds.foldl (fun a d => a * 10 + d) 0

/-- Parse a JSON number starting at the current position. -/
def parseNumber (cs : List Char) : Option (Json × List Char) :=
  let (neg, cs1) :=
    match cs with
    | '-' :: rest => (true, rest)
    | _ => (false, cs)
  let (ds, cs2) := digitsOf cs1
  if ds = [] then none
  else
    let intPart : Int := if neg then -(natOfDigits ds : Int) else (natOfDigits ds : Int)
    let fracStep : Option (List Nat × List Char) :=
      match cs2 with
      | '.' :: rest =>
        let r := digitsOf rest
        -- a '.' must be followed by at least one digit
        if r.1 = [] then none else some (r.1, r.2)
      | _ => some ([], cs2)
    match fracStep with
    | none => none
    | some (frac, cs3) =>
      let expStep : Option (Int × List Char) :=
        match cs3 with
        | 'e' :: rest | 'E' :: rest =>
          let (eneg, rest1) :=
            match rest with
            | '-' :: r => (true, r)
            | '+' :: r => (false, r)
            | _ => (false, rest)
          let r := digitsOf rest1
          if r.1 = [] then none
          else some (if eneg then -(natOfDigits r.1 : Int) else (natOfDigits r.1 : Int), r.2)
        | _ => some (0, cs3)
      match expStep with
      | none => none
      | some (e, cs4) => some (.num intPart frac e, cs4)

/-- Insert a field into an object under construction, JavaScript object
semantics: an existing key keeps its position and gets the new value. -/
def objInsert (fs : List (String × Json)) (k : String) (v : Json) : List (String × Json) :=
  if fs.any (fun p => p.1 = k) then fs.map (fun p => if p.1 = k then (k, v) else p)
  else fs ++ [(k, v)]

mutual

/-- Parse one JSON value; `fuel` bounds total recursion depth. -/
def parseValue : Nat → List Char → Option (Json × List Char)
  | 0, _ => none
  | fuel + 1, cs =>
    match skipJsonWs cs with
    | [] => none
    | c :: rest =>
      if c = 'n' then
        match rest with
        | 'u' :: 'l' :: 'l' :: r => some (.null, r)
        | _ => none
      else if c = 't' then
        match rest with
        | 'r' :: 'u' :: 'e' :: r => some (.bool true, r)
        | _ => none
      else if c = 'f' then
        match rest with
        | 'a' :: 'l' :: 's' :: 'e' :: r => some (.bool false, r)
        | _ => none
      else if c = '"' then
        (parseStringBody (rest.length + 1) rest).map (fun r => (.str (String.mk r.1), r.2))
      else if c = '[' then
        match skipJsonWs rest with
        | ']' :: r => some (.arr [], r)
        | other => (parseElements fuel other).map (fun r => (.arr r.1, r.2))
      else if c = '\x7b' then
        match skipJsonWs rest with
        | '\x7d' :: r => some (.obj [], r)
        | other =>
          -- duplicate keys: the later value wins, as in JavaScript
          (parseMembers fuel other).map
            (fun r => (.obj (r.1.foldl (fun acc p => objInsert acc p.1 p.2) []), r.2))
      else
        parseNumber (c :: rest)

/-- Parse the elements of a non-empty array, up to and including `]`. -/
def parseElements : Nat → List Char → Option (List Json × List Char)
  | 0, _ => none
  | fuel + 1, cs => do
    let (v, cs1) ← parseValue fuel cs
    match skipJsonWs cs1 with
    | ',' :: r =>
      let (vs, cs2) ← parseElements fuel r
      pure (v :: vs, cs2)
    | ']' :: r => pure ([v], r)
    | _ => none

/-- Parse the members of a non-empty object as raw key/value pairs in source
order, up to and including the closing brace. -/
def parseMembers : Nat → List Char → Option (List (String × Json) × List Char)
  | 0, _ => none
  | fuel + 1, cs =>
    match skipJsonWs cs with
    | '"' :: r => do
      let (key, cs1) ← parseStringBody (r.length + 1) r
      match skipJsonWs cs1 with
      | ':' :: cs2 => do
        let (v, cs3) ← parseValue fuel cs2
        match skipJsonWs cs3 with
        | ',' :: cs4 =>
          let (fs, cs5) ← parseMembers fuel cs4
          pure ((String.mk key, v) :: fs, cs5)
        | '\x7d' :: cs4 => pure ([(String.mk key, v)], cs4)
        | _ => none
      | _ => none
    | _ => none

end

/-- Model of `JSON.parse`: parse one value and require only whitespace after
it. -/
def jsonParse (cs : List Char) : Option Json :=
  match parseValue (2 * cs.length + 4) cs with
  | some (v, rest) => if skipJsonWs rest = [] then some v else none
  | none => none

/-! ### JavaScript string helpers -/

/-- Whitespace as recognised by `String.prototype.trim` (the characters that
occur in practice in SSE bodies). -/
def isJsWs (c : Char) : Bool :=
  c = ' ' || c = '\t' || c = '\n' || c = '\r' || c = '\x0b' || c = '\x0c'

/-- Model of `line.trim()`. -/
def jsTrim (l : List Char) : List Char :=
  ((l.dropWhile isJsWs).reverse.dropWhile isJsWs).reverse

/-- Model of `s.startsWith(mark)`. -/
def startsWithMark : List Char → List Char → Bool
  | [], _ => true
  | _ :: _, [] => false
  | m :: ms, c :: cs => m = c && startsWithMark ms cs

/-- First occurrence of `pat` in `l`: the text before it and the text after
it (models the scanning done by `String.prototype.match`/`includes`). -/
def findSplit (pat : List Char) : List Char → Option (List Char × List Char)
  | [] => if pat = [] then some ([], []) else none
  | c :: cs =>
    if startsWithMark pat (c :: cs) then some ([], (c :: cs).drop pat.length)
    else (findSplit pat cs).map (fun r => (c :: r.1, r.2))

/-- Model of `content.includes("<think>")`. -/
def containsThink (content : String) : Bool :=
  (findSplit (("<think>").data) content.data).isSome

/-- Model of `content.match(/<think>([\s\S]*?)<\/think>/)`, returning the
first capture group: the text between the first `<think>` and the first
`</think>` after it. -/
def extractThink (content : String) : Option String :=
  match findSplit (("<think>").data) content.data with
  | none => none
  | some (_, afterOpen) =>
    match findSplit (("</think>").data) afterOpen with
    | none => none
    | some (inner, _) => some (String.mk inner)

def lowerEq (a b : Char) : Bool := a.toLower = b.toLower

/-- Case-insensitive `startsWith`, for the `/i` regex flag. -/
def startsWithMarkCI : List Char → List Char → Bool
  | [], _ => true
  | _ :: _, [] => false
  | m :: ms, c :: cs => lowerEq m c && startsWithMarkCI ms cs

/-- Case-insensitive first occurrence of `pat`. -/
def findSplitCI (pat : List Char) : List Char → Option (List Char × List Char)
  | [] => if pat = [] then some ([], []) else none
  | c :: cs =>
    if startsWithMarkCI pat (c :: cs) then some ([], (c :: cs).drop pat.length)
    else (findSplitCI pat cs).map (fun r => (c :: r.1, r.2))

/-- Model of `content.replace(/<think>[\s\S]*?<\/think>/gi, "")`: repeatedly
remove the region from each `<think>` to the first following `</think>`
(case-insensitive), scanning left to right; `fuel` bounds the recursion. -/
def stripThinkAll : Nat → List Char → List Char
  | 0, cs => cs
  | fuel + 1, cs =>
    match findSplitCI (("<think>").data) cs with
    | none => cs
    | some (pre, afterOpen) =>
      match findSplitCI (("</think>").data) afterOpen with
      | none => cs
      | some (_, afterClose) => pre ++ stripThinkAll fuel afterClose

/-- Model of `content.replace(/<think>[\s\S]*?<\/think>/gi, "").trim()` used
by `fetchWithRetry` to clean reasoning output. -/
def cleanThink (s : String) : String :=
  String.mk (jsTrim (stripThinkAll s.data.length s.data))

/-! ### The incremental UTF-8 decoder

`TextDecoder("utf-8", {stream: true})` is modelled as the WHATWG UTF-8
decoder: a byte-at-a-time state machine.  Bit operations are written with
`/`, `%`, `*`, `+` (`b % 32 = b &&& 0x1F` for bytes below `0xE0`, etc.) so
that arithmetic reasoning applies directly.  With `stream: true`, bytes of an
incomplete trailing sequence stay in the state and are never flushed — the
source never calls the final `decode()`. -/

structure Utf8State where
  /-- code point accumulated so far -/
  cp : Nat
  /-- continuation bytes still required; `0` means "between characters" -/
  needed : Nat
  /-- lower bound for the next continuation byte -/
  lo : Nat
  /-- upper bound for the next continuation byte -/
  hi : Nat
deriving DecidableEq

def utf8Clean : Utf8State := ⟨0, 0, 0x80, 0xBF⟩

/-- Handle a byte in the "between characters" state. -/
def utf8Start (b : Nat) : Utf8State × List Char :=
  if b ≤ 0x7F then (utf8Clean, [Char.ofNat b])
  else if 0xC2 ≤ b ∧ b ≤ 0xDF then (⟨b % 32, 1, 0x80, 0xBF⟩, [])
  else if 0xE0 ≤ b ∧ b ≤ 0xEF then
    (⟨b % 16, 2, if b = 0xE0 then 0xA0 else 0x80, if b = 0xED then 0x9F else 0xBF⟩, [])
  else if 0xF0 ≤ b ∧ b ≤ 0xF4 then
    (⟨b % 8, 3, if b = 0xF0 then 0x90 else 0x80, if b = 0xF4 then 0x8F else 0xBF⟩, [])
  else (utf8Clean, ['�'])

/-- One byte of the WHATWG UTF-8 decoder. -/
def utf8Byte (s : Utf8State) (b : Nat) : Utf8State × List Char :=
  if s.needed = 0 then utf8Start b
  else if s.lo ≤ b ∧ b ≤ s.hi then
    let cp := s.cp * 64 + b % 64
    if s.needed = 1 then (utf8Clean, [Char.ofNat cp])
    else (⟨cp, s.needed - 1, 0x80, 0xBF⟩, [])
  else
    -- invalid continuation byte: emit U+FFFD and reprocess `b` fresh
    let r := utf8Start b
    (r.1, '�' :: r.2)

/-- Run the decoder over a chunk of bytes, accumulating the emitted text. -/
def utf8Run (s : Utf8State) (bytes : List Nat) : Utf8State × List Char :=
  bytes.foldl (fun p b => ((utf8Byte p.1 b).1, p.2 ++ (utf8Byte p.1 b).2)) (s, [])

/-- UTF-8 encoding of one scalar value (standard algorithm, used to build
concrete byte streams). -/
def utf8EncodeChar (c : Nat) : List Nat :=
  if c ≤ 0x7F then [c]
  else if c ≤ 0x7FF then [0xC0 + c / 64, 0x80 + c % 64]
  else if c ≤ 0xFFFF then [0xE0 + c / 4096, 0x80 + (c / 64) % 64, 0x80 + c % 64]
  else [0xF0 + c / 262144, 0x80 + (c / 4096) % 64, 0x80 + (c / 64) % 64, 0x80 + c % 64]

/-- UTF-8 encoding of a string. -/
def utf8Encode (s : String) : List Nat :=
  s.data.flatMap (fun c => utf8EncodeChar c.toNat)

/-! ### Line reassembly

`buffer += chunk; const lines = buffer.split("\n"); buffer = lines.pop()`:
`splitNewline` returns the complete (newline-terminated) lines and the
trailing fragment kept in the buffer. -/

/-- Split off the newline-terminated lines; the second component is the
trailing fragment after the last newline (the popped element). -/
def splitNewline : List Char → List (List Char) × List Char
  | [] => ([], [])
  | c :: rest =>
    let p := splitNewline rest
    if c = '\n' then ([] :: p.1, p.2)
    else
      match p.1 with
      | l :: ls => ((c :: l) :: ls, p.2)
      | [] => ([], c :: p.2)

/-- Decoded stream deltas (the spec's `DecodedDelta` without the terminal
marker, which the dispatcher adds). -/
inductive Delta where
  | text (s : String) : Delta
  | reasoning (s : String) : Delta
deriving DecidableEq

/-- One callback invocation of `streamRequest`. -/
inductive CbEvent where
  | token (s : String) : CbEvent
  | reasoning (s : String) : CbEvent
  | complete (s : String) : CbEvent
  | error (msg : String) : CbEvent
deriving DecidableEq

def Delta.toEvent : Delta → CbEvent
  | .text s => .token s
  | .reasoning s => .reasoning s

/-- Terminal callbacks: `onComplete` and `onError`. -/
def CbEvent.isTerminal : CbEvent → Bool
  | .complete _ => true
  | .error _ => true
  | _ => false

def dataMark : List Char := ("data: ").data

def doneMark : List Char := ("data: [DONE]").data

/-- Deltas extracted from one complete line by the newer `StreamManager`
revision (unnamed source file): trim; skip empty lines and the `[DONE]`
sentinel; parse the payload of a `data: ` line as JSON; a parse failure (or a
`TypeError` from accessing `.choices` on `null`) is caught, logged and
skipped; from `data.choices?.[0]?.delta` emit the content delta then, if the
caller supplied `onReasoning`, the reasoning delta. -/
def lineDeltasR (hasReasoningCb : Bool) (line : List Char) : List Delta :=
  let trimmed := jsTrim line
  if trimmed = [] then []
  else if trimmed = doneMark then []
  else if startsWithMark dataMark trimmed then
    match jsonParse (trimmed.drop 6) with
    | none => []
    | some data =>
      -- on `null`, `data.choices` throws a TypeError, caught and skipped
      if data.isNull then [] else
      let delta := jsF (jsIdx0 (jsF (some data) ("choices"))) ("delta")
      if jsTruthyO delta then
        (if jsTruthyO (jsF delta ("content"))
         then [Delta.text (jsStrOrEmpty (jsF delta ("content")))] else []) ++
        (if jsTruthyO (jsF delta ("reasoning")) && hasReasoningCb
         then [Delta.reasoning (jsStrOrEmpty (jsF delta ("reasoning")))] else [])
      else []
  else []

/-- Deltas extracted from one complete line by `src/streamManager.ts`: same
framing, but only `data.choices?.[0]?.delta?.content` is emitted. -/
def lineDeltasB (line : List Char) : List Delta :=
  let trimmed := jsTrim line
  if trimmed = [] then []
  else if trimmed = doneMark then []
  else if startsWithMark dataMark trimmed then
    match jsonParse (trimmed.drop 6) with
    | none => []
    | some data =>
      -- on `null`, `data.choices` throws a TypeError, caught and skipped
      if data.isNull then [] else
      let delta := jsF (jsF (jsIdx0 (jsF (some data) ("choices"))) ("delta")) ("content")
      if jsTruthyO delta then [Delta.text (jsStrOrEmpty delta)] else []
  else []

/-- The text accumulated into `fullText` by a batch of deltas: exactly the
`onToken` payloads (`fullText += delta.content` happens at each emission). -/
def tokensText (ds : List Delta) : String :=
  String.join (ds.filterMap (fun d => match d with | .text s => some s | _ => none))

/-- Per-call mutable state of the read loop (the spec's `StreamSession`). -/
structure SseState where
  dec : Utf8State
  buffer : List Char
  deltas : List Delta
  fullText : String
deriving DecidableEq

def initialSse : SseState := ⟨utf8Clean, [], [], ""⟩

/-- One iteration of the read loop: decode the chunk (streaming decoder),
append to the buffer, split off complete lines, process each line. -/
def processChunk (lineFn : List Char → List Delta) (st : SseState) (bytes : List Nat) : SseState :=
  let r := utf8Run st.dec bytes
  let buf := st.buffer ++ r.2
  let p := splitNewline buf
  let evs := p.1.flatMap lineFn
  ⟨r.1, p.2, st.deltas ++ evs, st.fullText ++ tokensText evs⟩

/-- The whole read loop over the delivered chunks. -/
def sseRun (lineFn : List Char → List Delta) (chunks : List (List Nat)) : SseState :=
  chunks.foldl (processChunk lineFn) initialSse

/-- How the byte stream ends: the source is drained (`done`), the caller's
`AbortController` fires mid-stream, or the transport fails mid-stream. -/
inductive StreamEnd where
  | done : StreamEnd
  | aborted : StreamEnd
  | netError (msg : String) : StreamEnd
deriving DecidableEq

/-- A transport response as consumed by `streamRequest`.  `bodyText` is the
octet stream presented as text for `response.json()` (`none` makes `json()`
reject); `chunks`/`ending` is the same stream presented chunk-wise for
`response.body.getReader()`.  The claims never relate the two views. -/
structure HttpResp where
  status : Nat
  statusText : String
  /-- whether the `content-type` header contains `application/json` -/
  contentTypeJson : Bool
  /-- whether `response.body` is non-null -/
  hasBody : Bool
  bodyText : Option String
  chunks : List (List Nat)
  ending : StreamEnd

/-- Outcome of the initial `fetch` call. -/
inductive FetchOutcome where
  | abortError : FetchOutcome
  | failure (msg : String) : FetchOutcome
  | success (r : HttpResp) : FetchOutcome

def HttpResp.ok (r : HttpResp) : Bool :=
  200 ≤ r.status && r.status ≤ 299

/-- The `API Error <status>[: message]` string thrown for a non-ok response:
the message comes from the JSON error body when it parses and has a truthy
`error.message`, else from `statusText`. -/
def apiErrorMsg (r : HttpResp) : String :=
  let base := ("API Error ") ++ toString r.status
  match r.bodyText with
  | none => base ++ (": ") ++ r.statusText
  | some s =>
    match jsonParse s.data with
    | none => base ++ (": ") ++ r.statusText
    | some j =>
      if jsTruthyO (jsF (jsF (some j) ("error")) ("message"))
      then base ++ (": ") ++ (jsStrOrEmpty (jsF (jsF (some j) ("error")) ("message")))
      else base

/-- Callback trace of the read loop followed by the loop's ending:
`onComplete(fullText)` when the source is drained, nothing on an abort
(`AbortError` is swallowed), `onError` on a mid-stream transport failure. -/
def sseTrace (lineFn : List Char → List Delta) (chunks : List (List Nat))
    (ending : StreamEnd) : List CbEvent :=
  let st := sseRun lineFn chunks
  match ending with
  | .done => st.deltas.map Delta.toEvent ++ [.complete st.fullText]
  | .aborted => st.deltas.map Delta.toEvent
  | .netError msg => st.deltas.map Delta.toEvent ++ [.error msg]

namespace StreamManager

/-- Callback trace of `StreamManager.streamRequest` from `src/streamManager.ts`
(the revision `src/main.ts` imports): non-ok responses and a missing body
raise through the catch into `onError`; otherwise the byte stream is decoded
by the read loop; an abort anywhere produces no further callbacks. -/
def streamRequest (f : FetchOutcome) : List CbEvent :=
  match f with
  | .abortError => []
  | .failure msg => [.error msg]
  | .success r =>
    if !r.ok then [.error (apiErrorMsg r)]
    else if !r.hasBody then [.error ("No response body")]
    else sseTrace lineDeltasB r.chunks r.ending

end StreamManager

namespace StreamManagerR

/-- Deltas of the JSON single-document fallback for a truthy first choice:
the explicit `reasoning` field, or else the first `<think>…</think>` group in
the content (only when `onReasoning` was supplied), then the content. -/
def fallbackDeltas (hasReasoningCb : Bool) (choice : Option Json) : List Delta :=
  let content := jsStrOrEmpty (jsF (jsF choice ("message")) ("content"))
  let reasoning := jsStrOrEmpty (jsF (jsF choice ("message")) ("reasoning"))
  (if reasoning ≠ "" ∧ hasReasoningCb then [Delta.reasoning reasoning]
   else if containsThink content then
     match extractThink content with
     | some inner => if hasReasoningCb then [Delta.reasoning inner] else []
     | none => []
   else []) ++
  (if content ≠ "" then [Delta.text content] else [])

/-- Callback trace of the newer `StreamManager.streamRequest` revision
(unnamed source file): like the basic revision, but a 2xx response whose
`content-type` declares JSON takes the single-document fallback path —
`response.json()` is parsed, the first choice's content (and reasoning)
are emitted as one degenerate frame followed by `onComplete(content)`;
a missing/falsy first choice returns silently; a `null` document makes
`json.choices` throw a `TypeError`, caught by the outer handler as `onError`. -/
def streamRequest (hasReasoningCb : Bool) (f : FetchOutcome) : List CbEvent :=
  match f with
  | .abortError => []
  | .failure msg => [.error msg]
  | .success r =>
    if !r.ok then [.error (apiErrorMsg r)]
    else if !r.hasBody then [.error ("No response body")]
    else if r.contentTypeJson then
      match r.bodyText with
      | none => [.error ("Failed to read response body")]
      | some s =>
        match jsonParse s.data with
        | none => [.error ("SyntaxError: Unexpected token in JSON")]
        | some j =>
          -- `json.choices` on a null document throws, surfacing via onError
          if j.isNull then [.error ("TypeError: Cannot read properties of null (reading choices)")] else
          let choice := jsIdx0 (jsF (some j) ("choices"))
          if jsTruthyO choice then
            let content := jsStrOrEmpty (jsF (jsF choice ("message")) ("content"))
            (fallbackDeltas hasReasoningCb choice).map Delta.toEvent ++ [.complete content]
          else []
    else sseTrace (lineDeltasR hasReasoningCb) r.chunks r.ending

end StreamManagerR

/-! ### The provider layer (`src/main.ts`) -/

/-- The persisted settings blob. Maps are association lists in insertion
order, matching JavaScript object key order. -/
structure OpenRouterSettings where
  apiKey : String
  apiUrl : String
  favoriteModels : List String
  modelContextLengths : List (String × Nat)
  pluginModels : List (String × String)
deriving DecidableEq

def DEFAULT_SETTINGS : OpenRouterSettings :=
  ⟨"", "https://openrouter.ai/api/v1/chat/completions",
   [("google/gemini-2.0-flash-exp:free"), ("openai/gpt-4o-mini"), ("anthropic/claude-3-haiku")],
   [], []⟩

/-- JavaScript object assignment `m[k] = v`: an existing key keeps its
position, a new key is appended. -/
def assocSet (m : List (String × String)) (k v : String) : List (String × String) :=
  if m.any (fun p => p.1 = k) then m.map (fun p => if p.1 = k then (k, v) else p)
  else m ++ [(k, v)]

/-- Same for the numeric context-length map. -/
def assocSetN (m : List (String × Nat)) (k : String) (v : Nat) : List (String × Nat) :=
  if m.any (fun p => p.1 = k) then m.map (fun p => if p.1 = k then (k, v) else p)
  else m ++ [(k, v)]

namespace OpenRouterProvider

def getApiKey (s : OpenRouterSettings) : String := s.apiKey

def setApiKey (s : OpenRouterSettings) (key : String) : OpenRouterSettings :=
  { s with apiKey := key }

/-- `getModel`: `pluginModels[pluginId] || favoriteModels[0] ||
"google/gemini-2.0-flash-exp:free"` — `||` falls through on the empty
string (JavaScript truthiness), not just on a missing key. -/
def getModel (s : OpenRouterSettings) (pluginId : String) : String :=
  let v := (((s.pluginModels.find? (fun p => p.1 = pluginId)).map (·.2)).getD (""))
  if v ≠ "" then v
  else
    let f := s.favoriteModels.headD ("")
    if f ≠ "" then f else ("google/gemini-2.0-flash-exp:free")

def setModel (s : OpenRouterSettings) (pluginId modelId : String) : OpenRouterSettings :=
  { s with pluginModels := assocSet s.pluginModels pluginId modelId }

def getFavorites (s : OpenRouterSettings) : List String := s.favoriteModels

/-- `addFavorite`: push if not already present; store the context length only
when it is truthy (so `0`/`null` are not recorded). -/
def addFavorite (s : OpenRouterSettings) (modelId : String) (contextLength : Option Nat) :
    OpenRouterSettings :=
  let favorites :=
    if s.favoriteModels.contains modelId then s.favoriteModels
    else s.favoriteModels ++ [modelId]
  let ctx :=
    match contextLength with
    | some n => if n ≠ 0 then assocSetN s.modelContextLengths modelId n else s.modelContextLengths
    | none => s.modelContextLengths
  { s with favoriteModels := favorites, modelContextLengths := ctx }

/-- `removeFavorite`: filter the id out. -/
def removeFavorite (s : OpenRouterSettings) (modelId : String) : OpenRouterSettings :=
  { s with favoriteModels := s.favoriteModels.filter (fun m => m ≠ modelId) }

/-- `fetchCredits`: the credential guard returns the unknown sentinel (`null`)
without issuing a request.  The two balance GETs and their floating-point
reduction are abstracted as the oracle `net` (floating point sits outside the
embedding); the Bool records whether any HTTP request was issued. -/
def fetchCredits (s : OpenRouterSettings) (net : Option String) : Bool × Option String :=
  if s.apiKey = "" then (false, none) else (true, net)

/-- `OpenRouterProvider.streamRequest`: the credential guard shows a Notice
and returns with no callback and no fetch; otherwise it delegates to
`StreamManager.streamRequest` (from `src/streamManager.ts`) with the
callbacks wrapped in status-bar updates (UI only, not part of the trace).
The Bool records whether the HTTP request was issued. -/
def streamRequest (s : OpenRouterSettings) (f : FetchOutcome) : Bool × List CbEvent :=
  if s.apiKey = "" then (false, []) else (true, StreamManager.streamRequest f)

end OpenRouterProvider

/-! ### `fetchWithRetry` -/

/-- One transport attempt as seen by the retry loop: `requestUrl` yields a
response (status and, when the body parsed, its JSON) or throws. -/
inductive TResult where
  | resp (status : Nat) (json : Option Json) : TResult
  | exn (msg : String) : TResult

/-- How a `fetchWithRetry` call ends: a returned response, a thrown error, or
falling off the end of the loop (the `async` function resolves `undefined`). -/
inductive RetryOutcome where
  | success (json : Option Json) : RetryOutcome
  | failure (msg : String) : RetryOutcome
  | noResult : RetryOutcome

structure RetryResult where
  outcome : RetryOutcome
  /-- how many times the transport was invoked -/
  calls : Nat
  /-- the delays awaited, in order (milliseconds, exact arithmetic) -/
  waits : List ℚ

/-- The `API Error <status>[: message]` string for a failed attempt. -/
def retryErrMsg (status : Nat) (json : Option Json) : String :=
  let base := ("API Error ") ++ toString status
  if jsTruthyO (jsF (jsF json ("error")) ("message"))
  then base ++ (": ") ++ jsStrOrEmpty (jsF (jsF json ("error")) ("message"))
  else base

/-- Write `v` into `j.choices[0].message.content` (used only when that path
is truthy; other shapes are left unchanged, like a failed non-strict
assignment). -/
def setContentPath (j : Json) (v : Json) : Json :=
  match j with
  | .obj fs =>
    .obj (fs.map (fun p =>
      if p.1 = ("choices") then
        (p.1,
          match p.2 with
          | .arr (c0 :: rest) =>
            .arr ((match c0 with
              | .obj cf =>
                Json.obj (cf.map (fun q =>
                  if q.1 = ("message") then
                    (q.1,
                      match q.2 with
                      | .obj mf => Json.obj (mf.map (fun t =>
                          if t.1 = ("content") then (t.1, v) else t))
                      | other => other)
                  else q))
              | other => other) :: rest)
          | other => other)
      else p))
  | other => other

/-- Post-processing of a successful response: when
`response.json?.choices?.[0]?.message?.content` is truthy, strip the
`<think>` blocks and trim it in place. -/
def stripThinkResp (json : Option Json) : Option Json :=
  match json with
  | none => none
  | some j =>
    let content := jsF (jsF (jsIdx0 (jsF (some j) ("choices"))) ("message")) ("content")
    if jsTruthyO content then
      some (setContentPath j (.str (cleanThink (jsStrOrEmpty content))))
    else some j

/-- The loop body of `fetchWithRetry` (structural recursion on `fuel`, which
starts at `retries`; since `i` starts at `0` and increases by one per
iteration, the fuel never runs out before the loop condition `i < retries`
fails, and both exits produce the same fallthrough result). -/
def retryLoop (transport : Nat → TResult) (retries : Nat) :
    Nat → Nat → ℚ → Nat → List ℚ → RetryResult
  | 0, _, _, calls, waits => ⟨.noResult, calls, waits⟩
  | fuel + 1, i, delay, calls, waits =>
    if retries ≤ i then ⟨.noResult, calls, waits⟩
    else
      match transport i with
      | .resp status json =>
        if status = 429 then
          -- rate limit: notify, wait `delay`, double it, consume the slot
          retryLoop transport retries fuel (i + 1) (delay * 2) (calls + 1) (waits ++ [delay])
        else if 400 ≤ status then
          -- thrown ApiError, handled by the catch below
          if i = retries - 1 then ⟨.failure (retryErrMsg status json), calls + 1, waits⟩
          else retryLoop transport retries fuel (i + 1) (delay * (3/2)) (calls + 1) (waits ++ [delay])
        else ⟨.success (stripThinkResp json), calls + 1, waits⟩
      | .exn msg =>
        if i = retries - 1 then ⟨.failure msg, calls + 1, waits⟩
        else retryLoop transport retries fuel (i + 1) (delay * (3/2)) (calls + 1) (waits ++ [delay])

namespace OpenRouterProvider

/-- `fetchWithRetry(requestBody, retries = 3, delay = 2000)`.  The settings
are threaded only to build the request (URL and bearer header); note the
absence of any credential guard.  `transport` models `requestUrl` per
attempt. -/
def fetchWithRetry (s : OpenRouterSettings) (transport : Nat → TResult)
    (retries : Nat) (delay : ℚ) : RetryResult :=
  retryLoop transport retries retries 0 delay 0 []

end OpenRouterProvider


/-! ### Derived predicates used by the verification statements -/

/-- Calls of the newer `streamRequest` that deliberately end with no terminal
callback: an abort at fetch time, an abort mid-stream, and the JSON fallback
document whose first choice is missing or falsy. -/
def silentOutcome (f : FetchOutcome) : Bool :=
  match f with
  | .abortError => true
  | .failure _ => false
  | .success r =>
    if !r.ok then false
    else if !r.hasBody then false
    else if r.contentTypeJson then
      match r.bodyText with
      | none => false
      | some s =>
        match jsonParse s.data with
        | none => false
        | some j =>
          if j.isNull then false
          else !(jsTruthyO (jsIdx0 (jsF (some j) ("choices"))))
    else
      match r.ending with
      | .aborted => true
      | _ => false

/-- The content delta a line would carry in `src/streamManager.ts`:
`data.choices?.[0]?.delta?.content` of the parsed payload, when it is a
string. -/
def deltaContentB (l : List Char) : Option String :=
  match jsonParse ((jsTrim l).drop 6) with
  | none => none
  | some data =>
    strOf? (jsF (jsF (jsIdx0 (jsF (some data) ("choices"))) ("delta")) ("content"))

/-- A well-formed SSE data frame carrying the single text delta `c`: marked
with `data: `, not the `[DONE]` sentinel, its payload parses and its
`choices[0].delta.content` is the non-empty string `c`. -/
def WellFormedFrame (l : String) (c : String) : Prop :=
  startsWithMark dataMark (jsTrim l.data) = true ∧
  jsTrim l.data ≠ doneMark ∧
  deltaContentB l.data = some c ∧ c ≠ ""

/-- A malformed line in the claim's sense: it carries the `data: ` marker but
its payload fails to parse as JSON. -/
def MalformedLine (l : String) : Prop :=
  startsWithMark dataMark (jsTrim l.data) = true ∧
  jsonParse ((jsTrim l.data).drop 6) = none

/-- A streaming body made of the given lines, each terminated by a newline,
encoded as UTF-8 bytes. -/
def linesBlob (lines : List String) : String :=
  String.mk (lines.flatMap (fun l => l.data ++ ['\n']))

/-- The first choice's message content as the fallback path computes it:
`json.choices?.[0]?.message?.content || ""`. -/
def contentOf (j : Json) : String :=
  jsStrOrEmpty (jsF (jsF (jsIdx0 (jsF (some j) ("choices"))) ("message")) ("content"))

/-- The first choice's explicit reasoning field:
`json.choices?.[0]?.message?.reasoning || ""`. -/
def reasoningOf (j : Json) : String :=
  jsStrOrEmpty (jsF (jsF (jsIdx0 (jsF (some j) ("choices"))) ("message")) ("reasoning"))

/-- One favorites operation, for stating closure under arbitrary call
sequences. -/
inductive FavOp where
  | add (modelId : String) (contextLength : Option Nat) : FavOp
  | remove (modelId : String) : FavOp

def favOpStep (s : OpenRouterSettings) : FavOp → OpenRouterSettings
  | .add m ctx => OpenRouterProvider.addFavorite s m ctx
  | .remove m => OpenRouterProvider.removeFavorite s m

/-- Apply a sequence of favorites operations. -/
def applyFavOps (s : OpenRouterSettings) (ops : List FavOp) : OpenRouterSettings :=
  ops.foldl favOpStep s

/-! ### Concrete fixtures used by witnesses and counterexamples -/

/-- A 200 JSON response whose body parses to an empty object: no first
choice. -/
def respEmptyObj : HttpResp := ⟨200, (""), true, true, some ("\x7b\x7d"), [], .done⟩

/-- A 200 JSON response whose body is the JSON document `null`. -/
def respNull : HttpResp := ⟨200, (""), true, true, some ("null"), [], .done⟩

/-- A 200 JSON response with content "Hello" (the spec's fallback example). -/
def respHello : HttpResp :=
  ⟨200, (""), true, true,
   some ("\x7b\"choices\":[\x7b\"message\":\x7b\"content\":\"Hello\"\x7d\x7d]\x7d"), [], .done⟩

/-- The parsed body of `respHello`. -/
def jHello : Json :=
  .obj [(("choices"), .arr [.obj [(("message"), .obj [(("content"), .str ("Hello"))])]])]

/-- A 200 JSON response carrying both content "A" and reasoning "B". -/
def respAB : HttpResp :=
  ⟨200, (""), true, true,
   some ("\x7b\"choices\":[\x7b\"message\":\x7b\"content\":\"A\",\"reasoning\":\"B\"\x7d\x7d]\x7d"),
   [], .done⟩

/-- A streaming (non-JSON) 200 response cancelled mid-stream. -/
def respAborted : HttpResp := ⟨200, (""), false, true, none, [], .aborted⟩

/-! ### Properties of the line reassembly -/

theorem splitNewline_cons_nl (rest : List Char) :
    splitNewline ('\n' :: rest) = ([] :: (splitNewline rest).1, (splitNewline rest).2) := by
  simp [splitNewline]

theorem splitNewline_cons_other (c : Char) (rest : List Char) (hc : c ≠ '\n') :
    splitNewline (c :: rest) =
      match (splitNewline rest).1 with
      | l :: ls => ((c :: l) :: ls, (splitNewline rest).2)
      | [] => ([], c :: (splitNewline rest).2) := by
  simp only [splitNewline, if_neg hc]

/-- The trailing fragment kept in the buffer never contains a newline. -/
theorem splitNewline_rem_no_newline (l : List Char) : '\n' ∉ (splitNewline l).2 := by
  induction l with
  | nil => simp [splitNewline]
  | cons c rest ih =>
    by_cases hc : c = '\n'
    · subst hc; simpa [splitNewline_cons_nl] using ih
    · rw [splitNewline_cons_other c rest hc]
      rcases h : (splitNewline rest).1 with _ | ⟨x, xs⟩
      · simp only []
        intro hmem
        rcases List.mem_cons.mp hmem with h1 | h2
        · exact hc h1.symm
        · exact ih h2
      · simpa using ih

/-- A newline-free buffer splits into no complete line and itself. -/
theorem splitNewline_no_newline (l : List Char) (h : '\n' ∉ l) :
    splitNewline l = ([], l) := by
  induction l with
  | nil => rfl
  | cons c rest ih =>
    have hc : c ≠ '\n' := fun hcc => h (hcc ▸ List.mem_cons_self c rest)
    have hr : '\n' ∉ rest := fun hm => h (List.mem_cons_of_mem c hm)
    rw [splitNewline_cons_other c rest hc, ih hr]

/-- Splitting a concatenation: the complete lines of `x` come first, then the
lines obtained after carrying `x`'s trailing fragment into `y`. -/
theorem splitNewline_append (x y : List Char) :
    splitNewline (x ++ y) =
      ((splitNewline x).1 ++ (splitNewline ((splitNewline x).2 ++ y)).1,
       (splitNewline ((splitNewline x).2 ++ y)).2) := by
  induction x with
  | nil => simp [splitNewline]
  | cons c rest ih =>
    by_cases hc : c = '\n'
    · subst hc
      simp [List.cons_append, splitNewline_cons_nl, ih]
    · rcases h2 : (splitNewline ((splitNewline rest).2 ++ y)).1 with _ | ⟨m, ms⟩ <;>
        rcases h1 : (splitNewline rest).1 with _ | ⟨l, ls⟩ <;>
          simp [List.cons_append, splitNewline_cons_other _ _ hc, ih, h1, h2]

/-! ### Properties of the incremental UTF-8 decoder -/

theorem utf8Run_nil (s : Utf8State) : utf8Run s [] = (s, []) := rfl

/-- The fold underlying `utf8Run` with an arbitrary starting accumulator. -/
theorem utf8Fold_acc (bs : List Nat) (s : Utf8State) (acc : List Char) :
    List.foldl (fun p b => ((utf8Byte p.1 b).1, p.2 ++ (utf8Byte p.1 b).2)) (s, acc) bs
      = ((utf8Run s bs).1, acc ++ (utf8Run s bs).2) := by
  induction bs generalizing s acc with
  | nil => simp [utf8Run]
  | cons x xs ih =>
    simp only [utf8Run, List.foldl]
    rw [ih ((utf8Byte s x).1) (acc ++ (utf8Byte s x).2),
        ih ((utf8Byte s x).1) ([] ++ (utf8Byte s x).2)]
    simp [List.append_assoc]

theorem utf8Run_cons (s : Utf8State) (b : Nat) (bs : List Nat) :
    utf8Run s (b :: bs) =
      ((utf8Run (utf8Byte s b).1 bs).1,
       (utf8Byte s b).2 ++ (utf8Run (utf8Byte s b).1 bs).2) := by
  simp only [utf8Run, List.foldl]
  rw [utf8Fold_acc]
  simp [utf8Run]

/-- Decoding a concatenation of byte chunks: the state threads through and the
outputs concatenate. -/
theorem utf8Run_append (s : Utf8State) (a b : List Nat) :
    utf8Run s (a ++ b) =
      ((utf8Run (utf8Run s a).1 b).1,
       (utf8Run s a).2 ++ (utf8Run (utf8Run s a).1 b).2) := by
  induction a generalizing s with
  | nil => simp [utf8Run_nil]
  | cons x xs ih =>
    rw [List.cons_append, utf8Run_cons, ih, utf8Run_cons]
    simp [List.append_assoc]

theorem charValidNat (c : Char) :
    c.toNat < 0xD800 ∨ (0xDFFF < c.toNat ∧ c.toNat < 0x110000) := by
  rcases c.valid with h | h
  · left; exact_mod_cast h
  · right; exact ⟨by exact_mod_cast h.1, by exact_mod_cast h.2⟩

theorem utf8Run_enc1 (n : Nat) (h : n ≤ 0x7F) :
    utf8Run utf8Clean [n] = (utf8Clean, [Char.ofNat n]) := by
  rw [utf8Run_cons, utf8Run_nil]
  simp [utf8Byte, utf8Start, utf8Clean, h]

theorem utf8Run_enc2 (n : Nat) (h1 : 0x80 ≤ n) (h2 : n ≤ 0x7FF) :
    utf8Run utf8Clean [0xC0 + n / 64, 0x80 + n % 64] = (utf8Clean, [Char.ofNat n]) := by
  have hA : ¬(0xC0 + n / 64 ≤ 0x7F) := by omega
  have hB1 : 0xC2 ≤ 0xC0 + n / 64 := by omega
  have hB2 : 0xC0 + n / 64 ≤ 0xDF := by omega
  have hC1 : 0x80 ≤ 0x80 + n % 64 := by omega
  have hC2 : 0x80 + n % 64 ≤ 0xBF := by omega
  have harg : (0xC0 + n / 64) % 32 * 64 + (0x80 + n % 64) % 64 = n := by omega
  rw [utf8Run_cons]
  simp only [utf8Byte, utf8Start, utf8Clean, hA, hB1, hB2, and_self, if_neg, if_pos,
    if_false, if_true, ite_false, ite_true]
  rw [utf8Run_cons, utf8Run_nil]
  simp only [utf8Byte, utf8Start]
  norm_num [hC1, hC2]
  refine ⟨rfl, ?_⟩
  congr 1
  omega

theorem utf8Run_enc3 (n : Nat) (h1 : 0x800 ≤ n) (h2 : n ≤ 0xFFFF)
    (hs : n < 0xD800 ∨ 0xDFFF < n) :
    utf8Run utf8Clean [0xE0 + n / 4096, 0x80 + n / 64 % 64, 0x80 + n % 64]
      = (utf8Clean, [Char.ofNat n]) := by
  have hA : ¬(0xE0 + n / 4096 ≤ 0x7F) := by omega
  have hB : ¬(0xE0 + n / 4096 ≤ 0xDF) := by omega
  have hC1 : 0xE0 ≤ 0xE0 + n / 4096 := by omega
  have hC2 : 0xE0 + n / 4096 ≤ 0xEF := by omega
  have hcp1 : (0xE0 + n / 4096) % 16 = n / 4096 := by omega
  have hcp2 : n / 4096 * 64 + (0x80 + n / 64 % 64) % 64 = n / 64 := by omega
  have hcp3 : n / 64 * 64 + (0x80 + n % 64) % 64 = n := by omega
  have hD1 : 0x80 ≤ 0x80 + n % 64 := by omega
  have hD2 : 0x80 + n % 64 ≤ 0xBF := by omega
  rw [utf8Run_cons]
  simp only [utf8Byte, utf8Start, utf8Clean, hA, hB, hC1, hC2, and_self, and_false,
    if_neg, if_pos, if_false, if_true, ite_false, ite_true, hcp1]
  rw [utf8Run_cons]
  by_cases hq0 : n / 4096 = 0
  · have hlo : 0xE0 + n / 4096 = 0xE0 := by omega
    have hne : ¬(0xE0 + n / 4096 = 0xED) := by omega
    have hE1 : 0xA0 ≤ 0x80 + n / 64 % 64 := by omega
    have hE2 : 0x80 + n / 64 % 64 ≤ 0xBF := by omega
    simp only [utf8Byte, utf8Start, hlo, hne, if_pos, if_neg, ite_true, ite_false, if_true, if_false]
    norm_num [hE1, hE2, hcp2]
    rw [utf8Run_cons, utf8Run_nil]
    simp only [utf8Byte, utf8Start]
    norm_num [hD1, hD2]
    refine ⟨rfl, ?_⟩
    congr 1
    omega
  · by_cases hq13 : n / 4096 = 13
    · have hlo : ¬(0xE0 + n / 4096 = 0xE0) := by omega
      have hhi : 0xE0 + n / 4096 = 0xED := by omega
      have hE1 : 0x80 ≤ 0x80 + n / 64 % 64 := by omega
      have hE2 : 0x80 + n / 64 % 64 ≤ 0x9F := by omega
      simp only [utf8Byte, utf8Start, hlo, hhi, if_pos, if_neg, ite_true, ite_false, if_true, if_false]
      norm_num [hE1, hE2, hcp2]
      rw [utf8Run_cons, utf8Run_nil]
      simp only [utf8Byte, utf8Start]
      norm_num [hD1, hD2]
      refine ⟨rfl, ?_⟩
      congr 1
      omega
    · have hlo : ¬(0xE0 + n / 4096 = 0xE0) := by omega
      have hhi : ¬(0xE0 + n / 4096 = 0xED) := by omega
      have hE1 : 0x80 ≤ 0x80 + n / 64 % 64 := by omega
      have hE2 : 0x80 + n / 64 % 64 ≤ 0xBF := by omega
      simp only [utf8Byte, utf8Start, hlo, hhi, if_pos, if_neg, ite_true, ite_false, if_true, if_false]
      norm_num [hE1, hE2, hcp2]
      rw [utf8Run_cons, utf8Run_nil]
      simp only [utf8Byte, utf8Start]
      norm_num [hD1, hD2]
      refine ⟨rfl, ?_⟩
      congr 1
      omega

theorem utf8Run_enc4 (n : Nat) (h1 : 0x10000 ≤ n) (h2 : n ≤ 0x10FFFF) :
    utf8Run utf8Clean
      [0xF0 + n / 262144, 0x80 + n / 4096 % 64, 0x80 + n / 64 % 64, 0x80 + n % 64]
      = (utf8Clean, [Char.ofNat n]) := by
  have hA : ¬(0xF0 + n / 262144 ≤ 0x7F) := by omega
  have hB : ¬(0xF0 + n / 262144 ≤ 0xDF) := by omega
  have hC : ¬(0xF0 + n / 262144 ≤ 0xEF) := by omega
  have hD1 : 0xF0 ≤ 0xF0 + n / 262144 := by omega
  have hD2 : 0xF0 + n / 262144 ≤ 0xF4 := by omega
  have hcp1 : (0xF0 + n / 262144) % 8 = n / 262144 := by omega
  have hE1 : 0x80 ≤ 0x80 + n / 64 % 64 := by omega
  have hE2 : 0x80 + n / 64 % 64 ≤ 0xBF := by omega
  have hF1 : 0x80 ≤ 0x80 + n % 64 := by omega
  have hF2 : 0x80 + n % 64 ≤ 0xBF := by omega
  rw [utf8Run_cons]
  simp only [utf8Byte, utf8Start, utf8Clean, hA, hB, hC, hD1, hD2, and_self, and_false,
    if_neg, if_pos, if_false, if_true, ite_false, ite_true, hcp1]
  rw [utf8Run_cons]
  by_cases hq0 : n / 262144 = 0
  · have hlo : 0xF0 + n / 262144 = 0xF0 := by omega
    have hne : ¬(0xF0 + n / 262144 = 0xF4) := by omega
    have hG1 : 0x90 ≤ 0x80 + n / 4096 % 64 := by omega
    have hG2 : 0x80 + n / 4096 % 64 ≤ 0xBF := by omega
    simp only [utf8Byte, utf8Start, hlo, hne, if_pos, if_neg, ite_true, ite_false, if_true, if_false]
    norm_num [hG1, hG2]
    rw [utf8Run_cons]
    simp only [utf8Byte, utf8Start]
    norm_num [hE1, hE2]
    rw [utf8Run_cons, utf8Run_nil]
    simp only [utf8Byte, utf8Start]
    norm_num [hF1, hF2]
    refine ⟨rfl, ?_⟩
    congr 1
    omega
  · by_cases hq4 : n / 262144 = 4
    · have hlo : ¬(0xF0 + n / 262144 = 0xF0) := by omega
      have hhi : 0xF0 + n / 262144 = 0xF4 := by omega
      have hG1 : 0x80 ≤ 0x80 + n / 4096 % 64 := by omega
      have hG2 : 0x80 + n / 4096 % 64 ≤ 0x8F := by omega
      simp only [utf8Byte, utf8Start, hlo, hhi, if_pos, if_neg, ite_true, ite_false, if_true, if_false]
      norm_num [hG1, hG2]
      rw [utf8Run_cons]
      simp only [utf8Byte, utf8Start]
      norm_num [hE1, hE2]
      rw [utf8Run_cons, utf8Run_nil]
      simp only [utf8Byte, utf8Start]
      norm_num [hF1, hF2]
      refine ⟨rfl, ?_⟩
      congr 1
      omega
    · have hlo : ¬(0xF0 + n / 262144 = 0xF0) := by omega
      have hhi : ¬(0xF0 + n / 262144 = 0xF4) := by omega
      have hG1 : 0x80 ≤ 0x80 + n / 4096 % 64 := by omega
      have hG2 : 0x80 + n / 4096 % 64 ≤ 0xBF := by omega
      simp only [utf8Byte, utf8Start, hlo, hhi, if_pos, if_neg, ite_true, ite_false, if_true, if_false]
      norm_num [hG1, hG2]
      rw [utf8Run_cons]
      simp only [utf8Byte, utf8Start]
      norm_num [hE1, hE2]
      rw [utf8Run_cons, utf8Run_nil]
      simp only [utf8Byte, utf8Start]
      norm_num [hF1, hF2]
      refine ⟨rfl, ?_⟩
      congr 1
      omega

/-- Decoding the UTF-8 encoding of one character yields exactly that
character and returns the decoder to the clean state. -/
theorem utf8Run_encodeChar (c : Char) :
    utf8Run utf8Clean (utf8EncodeChar c.toNat) = (utf8Clean, [c]) := by
  rcases charValidNat c with hv | hv
  · by_cases hs1 : c.toNat ≤ 0x7F
    · rw [utf8EncodeChar, if_pos hs1, utf8Run_enc1 _ hs1, Char.ofNat_toNat]
    · by_cases hs2 : c.toNat ≤ 0x7FF
      · rw [utf8EncodeChar, if_neg hs1, if_pos hs2,
          utf8Run_enc2 _ (by omega) hs2, Char.ofNat_toNat]
      · rw [utf8EncodeChar, if_neg hs1, if_neg hs2, if_pos (by omega),
          utf8Run_enc3 _ (by omega) (by omega) (Or.inl hv), Char.ofNat_toNat]
  · by_cases hs3 : c.toNat ≤ 0xFFFF
    · rw [utf8EncodeChar, if_neg (by omega), if_neg (by omega), if_pos hs3,
        utf8Run_enc3 _ (by omega) hs3 (Or.inr hv.1), Char.ofNat_toNat]
    · rw [utf8EncodeChar, if_neg (by omega), if_neg (by omega), if_neg hs3,
        utf8Run_enc4 _ (by omega) (by omega), Char.ofNat_toNat]

/-- Decoding the UTF-8 encoding of any string recovers exactly its characters
with the decoder back in the clean state. -/
theorem utf8Run_encode (s : String) :
    utf8Run utf8Clean (utf8Encode s) = (utf8Clean, s.data) := by
  show utf8Run utf8Clean (s.data.flatMap (fun c => utf8EncodeChar c.toNat)) = (utf8Clean, s.data)
  induction s.data with
  | nil => rfl
  | cons c cs ih =>
    rw [List.flatMap_cons, utf8Run_append, utf8Run_encodeChar, ih]
    simp

/-! ### Chunk-boundary independence of the read loop -/

theorem stringJoin_foldl (as : List String) (acc : String) :
    List.foldl (fun r s => r ++ s) acc as = acc ++ String.join as := by
  induction as generalizing acc with
  | nil => simp [String.join, String.append_empty]
  | cons x xs ih =>
    show List.foldl (fun r s => r ++ s) (acc ++ x) xs = acc ++ String.join (x :: xs)
    rw [ih (acc ++ x)]
    have hx : String.join (x :: xs) = x ++ String.join xs := by
      show List.foldl (fun r s => r ++ s) ("" ++ x) xs = x ++ String.join xs
      have he : ("" : String) ++ x = x := rfl
      rw [he, ih x]
    rw [hx, String.append_assoc]

theorem stringJoin_append (x y : List String) :
    String.join (x ++ y) = String.join x ++ String.join y := by
  show List.foldl (fun r s => r ++ s) "" (x ++ y) = String.join x ++ String.join y
  rw [List.foldl_append, stringJoin_foldl y, stringJoin_foldl x]
  have he : ("" : String) ++ String.join x = String.join x := rfl
  rw [he]

theorem tokensText_append (a b : List Delta) :
    tokensText (a ++ b) = tokensText a ++ tokensText b := by
  simp [tokensText, List.filterMap_append, stringJoin_append]

/-- One fused loop iteration equals two consecutive iterations: the decoder
state threads through `utf8Run_append` and the carried line fragment through
`splitNewline_append`. -/
theorem processChunk_append (f : List Char → List Delta) (st : SseState) (a b : List Nat) :
    processChunk f (processChunk f st a) b = processChunk f st (a ++ b) := by
  simp only [processChunk, utf8Run_append]
  rw [← List.append_assoc st.buffer, splitNewline_append (st.buffer ++ (utf8Run st.dec a).2)]
  simp [List.flatMap_append, tokensText_append, List.append_assoc, String.append_assoc]

/-- A chunk with no bytes leaves a (newline-free-buffer) state unchanged. -/
theorem processChunk_nil (f : List Char → List Delta) (st : SseState)
    (h : '\n' ∉ st.buffer) : processChunk f st [] = st := by
  simp [processChunk, utf8Run_nil, splitNewline_no_newline st.buffer h, tokensText,
    String.join, String.append_empty]

theorem processChunk_buffer_no_newline (f : List Char → List Delta) (st : SseState)
    (bytes : List Nat) : '\n' ∉ (processChunk f st bytes).buffer := by
  simp only [processChunk]
  exact splitNewline_rem_no_newline _

/-- The read loop is insensitive to how the byte stream is cut into chunks:
any chunking produces the same final session state as one fused chunk. -/
theorem sseRun_flatten (f : List Char → List Delta) (chunks : List (List Nat)) :
    sseRun f chunks = processChunk f initialSse chunks.flatten := by
  have key : ∀ (cs : List (List Nat)) (st : SseState), '\n' ∉ st.buffer →
      List.foldl (processChunk f) st cs = processChunk f st cs.flatten := by
    intro cs
    induction cs with
    | nil =>
      intro st hb
      simp [List.foldl, processChunk_nil f st hb]
    | cons c rest ih =>
      intro st hb
      simp only [List.foldl, List.flatten_cons]
      rw [ih (processChunk f st c) (processChunk_buffer_no_newline f st c),
        processChunk_append]
  have hinit : '\n' ∉ initialSse.buffer := by simp [initialSse]
  exact key chunks initialSse hinit

/-! ### Frame classification lemmas -/

theorem startsWithMark_ne_nil (m : List Char) (t : List Char) (hm : m ≠ [])
    (h : startsWithMark m t = true) : t ≠ [] := by
  intro ht
  subst ht
  rcases m with _ | ⟨x, xs⟩
  · exact hm rfl
  · simp [startsWithMark] at h

theorem strOf?_eq_some (o : Option Json) (c : String) (h : strOf? o = some c) :
    o = some (.str c) := by
  rcases o with _ | j
  · simp [strOf?] at h
  · cases j <;> simp_all [strOf?]

theorem Json.field?_of_isNull (d : Json) (k : String) (h : d.isNull = true) :
    Json.field? d k = none := by
  cases d <;> simp_all [Json.isNull, Json.field?]

/-- A well-formed frame line contributes exactly its one text delta. -/
theorem lineDeltasB_wf (l : List Char) (c : String)
    (h1 : startsWithMark dataMark (jsTrim l) = true)
    (h2 : jsTrim l ≠ doneMark)
    (h3 : deltaContentB l = some c) (h4 : c ≠ "") :
    lineDeltasB l = [Delta.text c] := by
  have hne : jsTrim l ≠ [] := startsWithMark_ne_nil dataMark (jsTrim l) (by decide) h1
  unfold deltaContentB at h3
  unfold lineDeltasB
  rw [if_neg hne, if_neg h2, if_pos h1]
  rcases hj : jsonParse ((jsTrim l).drop 6) with _ | d
  · rw [hj] at h3; exact absurd h3 (by simp)
  · rw [hj] at h3
    have hch := strOf?_eq_some _ _ h3
    have hnn : d.isNull = false := by
      rcases hb : d.isNull with _ | _
      · rfl
      · have hjf : jsF (some d) ("choices") = none := by
          simp [jsF, Json.field?_of_isNull d _ hb]
        rw [hjf] at hch
        simp [jsF, jsIdx0] at hch
    simp only [hnn, if_false, Bool.false_eq_true, ite_false]
    rw [hch]
    simp [jsTruthyO, Json.truthy, jsStrOrEmpty, Json.toStr, h4]

/-- A line whose `data: ` payload does not parse as JSON is skipped. -/
theorem lineDeltasB_malformed (l : List Char)
    (hp : jsonParse ((jsTrim l).drop 6) = none) :
    lineDeltasB l = [] := by
  unfold lineDeltasB
  by_cases he : jsTrim l = []
  · rw [if_pos he]
  · rw [if_neg he]
    by_cases hd : jsTrim l = doneMark
    · rw [if_pos hd]
    · rw [if_neg hd]
      by_cases hs : startsWithMark dataMark (jsTrim l) = true
      · rw [if_pos hs, hp]
      · rw [if_neg hs]

theorem splitNewline_line_nl (x : List Char) (h : '\n' ∉ x) :
    splitNewline (x ++ ['\n']) = ([x], []) := by
  induction x with
  | nil => simp [splitNewline_cons_nl, splitNewline]
  | cons c rest ih =>
    have hc : c ≠ '\n' := fun hcc => h (hcc ▸ List.mem_cons_self c rest)
    have hr : '\n' ∉ rest := fun hm => h (List.mem_cons_of_mem c hm)
    rw [List.cons_append, splitNewline_cons_other c _ hc, ih hr]

/-- A body of newline-terminated lines splits exactly into those lines with an
empty trailing fragment. -/
theorem splitNewline_lines (ls : List (List Char)) (h : ∀ l ∈ ls, '\n' ∉ l) :
    splitNewline (ls.flatMap (fun l => l ++ ['\n'])) = (ls, []) := by
  induction ls with
  | nil => rfl
  | cons x xs ih =>
    rw [List.flatMap_cons, splitNewline_append,
      splitNewline_line_nl x (h x (List.mem_cons_self x xs))]
    simp only [List.nil_append]
    rw [ih (fun l hl => h l (List.mem_cons_of_mem x hl))]
    simp

/-- Under the claim's classification every line contributes exactly its
(optional) content delta, in order. -/
theorem flatMap_lineDeltasB (lines : List String) (cof : String → Option String)
    (hclass : ∀ l ∈ lines,
      (∃ c, cof l = some c ∧ WellFormedFrame l c) ∨ (cof l = none ∧ MalformedLine l)) :
    (lines.map String.data).flatMap lineDeltasB
      = (lines.filterMap cof).map Delta.text := by
  induction lines with
  | nil => rfl
  | cons x xs ih =>
    rw [List.map_cons, List.flatMap_cons, List.filterMap_cons]
    rcases hclass x (List.mem_cons_self x xs) with ⟨c, hc, hwf⟩ | ⟨hc, hmal⟩
    · rw [hc, lineDeltasB_wf x.data c hwf.1 hwf.2.1 hwf.2.2.1 hwf.2.2.2,
        ih (fun l hl => hclass l (List.mem_cons_of_mem x hl))]
      simp
    · rw [hc, lineDeltasB_malformed x.data hmal.2,
        ih (fun l hl => hclass l (List.mem_cons_of_mem x hl))]
      simp

theorem tokensText_texts (xs : List String) :
    tokensText (xs.map Delta.text) = String.join xs := by
  simp only [tokensText, List.filterMap_map]
  have h : List.filterMap
      ((fun d => match d with | Delta.text s => some s | _ => none) ∘ Delta.text) xs
      = List.filterMap some xs := by
    apply List.filterMap_congr
    intro a _
    rfl
  rw [h, List.filterMap_some]

theorem sseRun_single (f : List Char → List Delta) (bytes : List Nat) :
    sseRun f [bytes] = processChunk f initialSse bytes := by
  simp [sseRun, List.foldl]

/-- Claim C6: for every streaming body consisting of well-formed SSE data
frames interleaved with malformed lines (lines whose payload fails to parse
as JSON), at any positions and for any count, the decoder yields exactly the
valid deltas in their original order and then completes, with `onComplete`
receiving the concatenation of all text deltas in arrival order; a malformed
line is skipped and never aborts the session. -/
theorem C6_malformed_lines_skipped (lines : List String) (cof : String → Option String)
    (stx : String) (ctj : Bool) (bt : Option String)
    (hnl : ∀ l ∈ lines, ('\n') ∉ l.data)
    (hclass : ∀ l ∈ lines,
      (∃ c, cof l = some c ∧ WellFormedFrame l c) ∨ (cof l = none ∧ MalformedLine l)) :
    StreamManager.streamRequest
        (.success ⟨200, stx, ctj, true, bt, [utf8Encode (linesBlob lines)], .done⟩)
      = ((lines.filterMap cof).map CbEvent.token)
        ++ [CbEvent.complete (String.join (lines.filterMap cof))] := by
  unfold StreamManager.streamRequest
  norm_num [HttpResp.ok]
  unfold sseTrace
  rw [sseRun_single]
  simp only [processChunk, initialSse]
  rw [utf8Run_encode]
  have hblob : (linesBlob lines).data = (lines.map String.data).flatMap (fun l => l ++ ['\n']) := by
    show lines.flatMap (fun l => l.data ++ ['\n']) = _
    rw [List.flatMap_map]
  rw [hblob]
  have hnl2 : ∀ l ∈ lines.map String.data, '\n' ∉ l := by
    intro l hl
    rcases List.mem_map.mp hl with ⟨x, hx, rfl⟩
    exact hnl x hx
  have hsp : splitNewline (([] : List Char) ++ (lines.map String.data).flatMap (fun l => l ++ ['\n']))
      = (lines.map String.data, []) := by
    rw [List.nil_append]
    exact splitNewline_lines _ hnl2
  simp only [hsp]
  rw [flatMap_lineDeltasB lines cof hclass, tokensText_texts]
  simp [List.map_map, Delta.toEvent, Function.comp]

/-- Claim C7: the decoded callback sequence is independent of how the byte
stream is partitioned into chunks — any chunking, including boundaries inside
a multi-byte character or inside a line, produces the same trace as one fused
chunk.  Stated for both `StreamManager` revisions. -/
theorem C7_chunk_boundary_independence (chunks : List (List Nat)) (ending : StreamEnd)
    (hasReasoningCb : Bool) :
    sseTrace (lineDeltasR hasReasoningCb) chunks ending
        = sseTrace (lineDeltasR hasReasoningCb) [chunks.flatten] ending ∧
    sseTrace lineDeltasB chunks ending = sseTrace lineDeltasB [chunks.flatten] ending := by
  constructor <;> (unfold sseTrace; rw [sseRun_single, sseRun_flatten])

/-! ### Callback discipline of the dispatcher (claim C1) -/

theorem filter_isTerminal_map_toEvent (ds : List Delta) :
    (ds.map Delta.toEvent).filter CbEvent.isTerminal = [] := by
  induction ds with
  | nil => rfl
  | cons d rest ih => cases d <;> simpa [Delta.toEvent, CbEvent.isTerminal] using ih

theorem not_terminal_of_mem_map_toEvent (ds : List Delta) (e : CbEvent)
    (h : e ∈ ds.map Delta.toEvent) : e.isTerminal = false := by
  rcases List.mem_map.mp h with ⟨d, _, rfl⟩
  cases d <;> rfl

/-- Shape of every trace the dispatcher produces: deltas first, then at most
one terminal callback. -/
theorem traceShape (ds : List Delta) (tl : List CbEvent)
    (htl : ∀ e ∈ tl, e.isTerminal = true) (hlen : tl.length ≤ 1) :
    (((ds.map Delta.toEvent ++ tl).filter CbEvent.isTerminal).length ≤ 1) ∧
    (∀ i e, i + 1 < (ds.map Delta.toEvent ++ tl).length →
        (ds.map Delta.toEvent ++ tl).get? i = some e → e.isTerminal = false) ∧
    ((((ds.map Delta.toEvent ++ tl).filter CbEvent.isTerminal).length = 0) ↔ tl = []) := by
  have hfil : (ds.map Delta.toEvent ++ tl).filter CbEvent.isTerminal = tl := by
    rw [List.filter_append, filter_isTerminal_map_toEvent, List.nil_append,
      List.filter_eq_self.mpr htl]
  refine ⟨by rw [hfil]; exact hlen, ?_, by rw [hfil]; exact List.length_eq_zero⟩
  intro i e hi hget
  have hlt : i < (ds.map Delta.toEvent).length := by
    rw [List.length_append] at hi
    omega
  rw [List.get?_append hlt] at hget
  exact not_terminal_of_mem_map_toEvent ds e (List.get?_mem hget)

/-- Claim C1 (amended): `onToken`/`onReasoning` always precede any terminal
callback; at most one terminal callback fires per call, and none fires
exactly on the silent outcomes: a cancellation (at fetch time or mid-stream)
or the JSON-fallback document with a missing/falsy first choice. -/
theorem C1_terminal_callback_discipline (f : FetchOutcome) (hasReasoningCb : Bool) :
    (((StreamManagerR.streamRequest hasReasoningCb f).filter CbEvent.isTerminal).length ≤ 1) ∧
    (∀ i e, i + 1 < (StreamManagerR.streamRequest hasReasoningCb f).length →
        (StreamManagerR.streamRequest hasReasoningCb f).get? i = some e →
          e.isTerminal = false) ∧
    ((((StreamManagerR.streamRequest hasReasoningCb f).filter CbEvent.isTerminal).length = 0)
        ↔ silentOutcome f = true) := by
  cases f with
  | abortError =>
    have h := traceShape [] [] (by simp) (by simp)
    simpa [StreamManagerR.streamRequest, silentOutcome] using h
  | failure msg =>
    have h := traceShape [] [.error msg] (by simp [CbEvent.isTerminal]) (by simp)
    simpa [StreamManagerR.streamRequest, silentOutcome] using h
  | success r =>
    by_cases hok : r.ok
    case neg =>
      have h := traceShape [] [.error (apiErrorMsg r)] (by simp [CbEvent.isTerminal]) (by simp)
      simpa [StreamManagerR.streamRequest, silentOutcome, hok] using h
    case pos =>
    by_cases hbody : r.hasBody
    case neg =>
      have h := traceShape [] [.error ("No response body")] (by simp [CbEvent.isTerminal]) (by simp)
      simpa [StreamManagerR.streamRequest, silentOutcome, hok, hbody] using h
    case pos =>
    by_cases hct : r.contentTypeJson
    case pos =>
      rcases hbt : r.bodyText with _ | s
      · have h := traceShape [] [.error ("Failed to read response body")]
          (by simp [CbEvent.isTerminal]) (by simp)
        simpa [StreamManagerR.streamRequest, silentOutcome, hok, hbody, hct, hbt] using h
      · rcases hp : jsonParse s.data with _ | j
        · have h := traceShape [] [.error ("SyntaxError: Unexpected token in JSON")]
            (by simp [CbEvent.isTerminal]) (by simp)
          simpa [StreamManagerR.streamRequest, silentOutcome, hok, hbody, hct, hbt, hp] using h
        · by_cases hnull : j.isNull
          case pos =>
            have h := traceShape []
              [.error ("TypeError: Cannot read properties of null (reading choices)")]
              (by simp [CbEvent.isTerminal]) (by simp)
            simpa [StreamManagerR.streamRequest, silentOutcome, hok, hbody, hct, hbt, hp,
              hnull] using h
          case neg =>
            by_cases hch : jsTruthyO (jsIdx0 (jsF (some j) ("choices"))) = true
            · have h := traceShape
                (StreamManagerR.fallbackDeltas hasReasoningCb (jsIdx0 (jsF (some j) ("choices"))))
                [.complete (jsStrOrEmpty (jsF (jsF (jsIdx0 (jsF (some j) ("choices"))) ("message"))
                  ("content")))]
                (by simp [CbEvent.isTerminal]) (by simp)
              simpa [StreamManagerR.streamRequest, silentOutcome, hok, hbody, hct, hbt, hp,
                hnull, hch] using h
            · have h := traceShape [] [] (by simp) (by simp)
              simpa [StreamManagerR.streamRequest, silentOutcome, hok, hbody, hct, hbt, hnull,
                hp, hch] using h
    case neg =>
      cases hend : r.ending with
      | done =>
        have h := traceShape (sseRun (lineDeltasR hasReasoningCb) r.chunks).deltas
          [.complete (sseRun (lineDeltasR hasReasoningCb) r.chunks).fullText]
          (by simp [CbEvent.isTerminal]) (by simp)
        simpa [StreamManagerR.streamRequest, silentOutcome, sseTrace, hok, hbody, hct,
          hend] using h
      | aborted =>
        have h := traceShape (sseRun (lineDeltasR hasReasoningCb) r.chunks).deltas []
          (by simp) (by simp)
        simpa [StreamManagerR.streamRequest, silentOutcome, sseTrace, hok, hbody, hct,
          hend] using h
      | netError msg =>
        have h := traceShape (sseRun (lineDeltasR hasReasoningCb) r.chunks).deltas [.error msg]
          (by simp [CbEvent.isTerminal]) (by simp)
        simpa [StreamManagerR.streamRequest, silentOutcome, sseTrace, hok, hbody, hct,
          hend] using h

theorem extractThink_none_of_not_contains (content : String)
    (h : containsThink content = false) : extractThink content = none := by
  unfold containsThink at h
  unfold extractThink
  rcases hf : findSplit (("<think>").data) content.data with _ | p
  · rfl
  · rw [hf] at h; simp at h

/-- Shape of the fallback frame: an optional single reasoning delta first,
then the text delta when the content is non-empty; the reasoning delta is
present exactly when the explicit field is non-empty or a think-tag pair is
embedded in the content. -/
theorem fallbackDeltas_shape (choice : Option Json) :
    ∃ pre,
      StreamManagerR.fallbackDeltas true choice
        = pre ++ (if jsStrOrEmpty (jsF (jsF choice ("message")) ("content")) ≠ "" then
                    [Delta.text (jsStrOrEmpty (jsF (jsF choice ("message")) ("content")))]
                  else []) ∧
      (pre = [] ∨ ∃ rs, pre = [Delta.reasoning rs]) ∧
      (pre ≠ [] ↔ (jsStrOrEmpty (jsF (jsF choice ("message")) ("reasoning")) ≠ ""
          ∨ (extractThink (jsStrOrEmpty (jsF (jsF choice ("message")) ("content")))).isSome)) := by
  unfold StreamManagerR.fallbackDeltas
  refine ⟨_, rfl, ?_, ?_⟩
  · by_cases hr : jsStrOrEmpty (jsF (jsF choice ("message")) ("reasoning")) ≠ ""
    · simp [hr]
    · simp only [hr, false_and, if_false, ite_false]
      by_cases hth : containsThink (jsStrOrEmpty (jsF (jsF choice ("message")) ("content")))
      · simp only [hth, if_true, ite_true]
        rcases hx : extractThink (jsStrOrEmpty (jsF (jsF choice ("message")) ("content"))) with _ | i
        · simp
        · simp
      · simp [hth]
  · by_cases hr : jsStrOrEmpty (jsF (jsF choice ("message")) ("reasoning")) ≠ ""
    · simp [hr]
    · simp only [ne_eq, not_not] at hr
      simp only [hr, ne_eq, not_true_eq_false, false_and, if_false, ite_false]
      by_cases hth : containsThink (jsStrOrEmpty (jsF (jsF choice ("message")) ("content")))
      · simp only [hth, if_true, ite_true]
        rcases hx : extractThink (jsStrOrEmpty (jsF (jsF choice ("message")) ("content"))) with _ | i
        · simp [hx]
        · simp [hx]
      · have hx := extractThink_none_of_not_contains _ (by simpa using hth)
        simp [hth, hx]

/-- Claim C3 (amended): in the single-document fallback the call emits one
Reasoning delta when a reasoning field (or an embedded think-tag pair) is
found, then one Text delta when the content is non-empty, then completes
with the content — the Reasoning delta, when present, precedes the Text
delta. -/
theorem C3_fallback_mode (r : HttpResp) (s : String) (j : Json)
    (hok : r.ok = true) (hbody : r.hasBody = true) (hct : r.contentTypeJson = true)
    (hbt : r.bodyText = some s) (hp : jsonParse s.data = some j) (hnull : j.isNull = false)
    (hch : jsTruthyO (jsIdx0 (jsF (some j) ("choices"))) = true) :
    ∃ pre,
      StreamManagerR.streamRequest true (.success r)
        = pre ++ (if contentOf j ≠ "" then [CbEvent.token (contentOf j)] else [])
            ++ [CbEvent.complete (contentOf j)] ∧
      (pre = [] ∨ ∃ rs, pre = [CbEvent.reasoning rs]) ∧
      (pre ≠ [] ↔ (reasoningOf j ≠ "" ∨ (extractThink (contentOf j)).isSome)) := by
  have htr : StreamManagerR.streamRequest true (.success r)
      = (StreamManagerR.fallbackDeltas true (jsIdx0 (jsF (some j) ("choices")))).map Delta.toEvent
        ++ [CbEvent.complete (contentOf j)] := by
    simp only [StreamManagerR.streamRequest, hok, hbody, hct, hbt, hp, hnull, hch,
      Bool.not_true, Bool.false_eq_true, if_false, ite_false, ite_true, contentOf]
  obtain ⟨pre, h1, h2, h3⟩ := fallbackDeltas_shape (jsIdx0 (jsF (some j) ("choices")))
  refine ⟨pre.map Delta.toEvent, ?_, ?_, ?_⟩
  · rw [htr, h1, List.map_append]
    simp only [contentOf]
    congr 1
    rw [apply_ite (List.map Delta.toEvent)]
    rfl
  · rcases h2 with h | ⟨rs, h⟩
    · left; rw [h]; rfl
    · right; exact ⟨rs, by rw [h]; rfl⟩
  · rw [show (pre.map Delta.toEvent ≠ []) ↔ (pre ≠ []) by simp]
    exact h3

set_option maxRecDepth 100000

/-- Claim C1 counterexample: a successful 200 JSON response whose body `{}`
parses but has no first choice fires zero terminal callbacks, although the
call is not a cancellation — refuting "exactly one terminal callback fires
per call (except cancellation)". -/
theorem C1_counterexample :
    StreamManagerR.streamRequest true (.success respEmptyObj) = [] ∧
    (FetchOutcome.success respEmptyObj) ≠ FetchOutcome.abortError := by
  refine ⟨rfl, ?_⟩
  intro h
  exact FetchOutcome.noConfusion h

/-- Witness for C1 at a mid-stream cancellation: zero terminal callbacks. -/
theorem C1_witness :
    ((StreamManagerR.streamRequest true (.success respAborted)).filter
        CbEvent.isTerminal).length = 0 :=
  (C1_terminal_callback_discipline (.success respAborted) true).2.2.mpr (by rfl)

/-- Claim C3 counterexample: with both content "A" and reasoning "B" present,
the fallback emits `onReasoning("B")` BEFORE `onToken("A")` — not the
text-then-reasoning order the claim lists. -/
theorem C3_counterexample :
    StreamManagerR.streamRequest true (.success respAB)
      = [CbEvent.reasoning ("B"), CbEvent.token ("A"), CbEvent.complete ("A")] ∧
    StreamManagerR.streamRequest true (.success respAB)
      ≠ [CbEvent.token ("A"), CbEvent.reasoning ("B"), CbEvent.complete ("A")] := by
  refine ⟨rfl, ?_⟩
  intro h
  have h0 : StreamManagerR.streamRequest true (.success respAB)
      = [CbEvent.reasoning ("B"), CbEvent.token ("A"), CbEvent.complete ("A")] := rfl
  rw [h0] at h
  exact absurd h (by decide)

/-- Witness for C3 at the spec's "Hello" body. -/
theorem C3_witness :
    ∃ pre,
      StreamManagerR.streamRequest true (.success respHello)
        = pre ++ (if contentOf jHello ≠ "" then [CbEvent.token (contentOf jHello)] else [])
            ++ [CbEvent.complete (contentOf jHello)] ∧
      (pre = [] ∨ ∃ rs, pre = [CbEvent.reasoning rs]) ∧
      (pre ≠ [] ↔ (reasoningOf jHello ≠ "" ∨ (extractThink (contentOf jHello)).isSome)) :=
  C3_fallback_mode respHello
    ("\x7b\"choices\":[\x7b\"message\":\x7b\"content\":\"Hello\"\x7d\x7d]\x7d") jHello
    rfl rfl rfl rfl rfl rfl rfl

/-- Claim C10 (amended): a 2xx JSON body that parses to a non-null document
with no first element under `choices` produces no callback at all. -/
theorem C10_empty_choice_silent (r : HttpResp) (s : String) (j : Json) (hasReasoningCb : Bool)
    (hok : r.ok = true) (hbody : r.hasBody = true) (hct : r.contentTypeJson = true)
    (hbt : r.bodyText = some s) (hp : jsonParse s.data = some j) (hnull : j.isNull = false)
    (hch : jsIdx0 (jsF (some j) ("choices")) = none) :
    StreamManagerR.streamRequest hasReasoningCb (.success r) = [] := by
  simp [StreamManagerR.streamRequest, hok, hbody, hct, hbt, hp, hnull, hch, jsTruthyO]

/-- Claim C10 counterexample: the body `null` parses successfully and has no
first element under `choices`, yet `onError` IS invoked (the TypeError from
`json.choices`), refuting "no callback at all". -/
theorem C10_counterexample :
    jsonParse (("null").data) = some Json.null ∧
    jsIdx0 (jsF (some Json.null) ("choices")) = none ∧
    StreamManagerR.streamRequest true (.success respNull)
      = [CbEvent.error ("TypeError: Cannot read properties of null (reading choices)")] :=
  ⟨rfl, rfl, rfl⟩

/-- Witness for C10 at the `\x7b\x7d` body. -/
theorem C10_witness : StreamManagerR.streamRequest true (.success respEmptyObj) = [] :=
  C10_empty_choice_silent respEmptyObj ("\x7b\x7d") (Json.obj []) true
    rfl rfl rfl rfl rfl rfl rfl

/-! ### Credential guard and retry policy -/

theorem retryLoop_calls_mono (t : Nat → TResult) (retries : Nat) :
    ∀ (fuel i : Nat) (delay : ℚ) (calls : Nat) (waits : List ℚ),
      calls ≤ (retryLoop t retries fuel i delay calls waits).calls := by
  intro fuel
  induction fuel with
  | zero => intro i delay calls waits; exact le_refl _
  | succ n ih =>
    intro i delay calls waits
    unfold retryLoop
    by_cases hi : retries ≤ i
    · rw [if_pos hi]
    · rw [if_neg hi]
      cases ht : t i with
      | resp status json =>
        by_cases h429 : status = 429
        · simp only [h429, ite_true]
          exact le_trans (Nat.le_succ calls) (ih _ _ _ _)
        · by_cases h400 : 400 ≤ status
          · simp only [h429, h400, ite_false, ite_true]
            by_cases hlast : i = retries - 1
            · simp only [hlast, ite_true]
              exact Nat.le_succ calls
            · simp only [hlast, ite_false]
              exact le_trans (Nat.le_succ calls) (ih _ _ _ _)
          · simp only [h429, h400, ite_false]
            exact Nat.le_succ calls
      | exn msg =>
        by_cases hlast : i = retries - 1
        · simp only [hlast, ite_true]
          exact Nat.le_succ calls
        · simp only [hlast, ite_false]
          exact le_trans (Nat.le_succ calls) (ih _ _ _ _)

/-- Claim C2 (amended): with an empty API key, `streamRequest` and
`fetchCredits` fail fast — no HTTP request, no callback, the unknown
sentinel — but `fetchWithRetry` has no credential guard and issues the
request anyway. -/
theorem C2_credential_guard (s : OpenRouterSettings) (f : FetchOutcome) (net : Option String)
    (t : Nat → TResult) (retries : Nat) (d : ℚ)
    (hkey : s.apiKey = "") (hr : 1 ≤ retries) :
    OpenRouterProvider.streamRequest s f = (false, []) ∧
    OpenRouterProvider.fetchCredits s net = (false, none) ∧
    1 ≤ (OpenRouterProvider.fetchWithRetry s t retries d).calls := by
  refine ⟨by simp [OpenRouterProvider.streamRequest, hkey],
          by simp [OpenRouterProvider.fetchCredits, hkey], ?_⟩
  unfold OpenRouterProvider.fetchWithRetry
  rcases retries with _ | n
  · omega
  · unfold retryLoop
    rw [if_neg (by omega)]
    cases ht : t 0 with
    | resp status json =>
      by_cases h429 : status = 429
      · simp only [h429, ite_true]
        exact le_trans (by omega) (retryLoop_calls_mono t (n + 1) _ _ _ _ _)
      · by_cases h400 : 400 ≤ status
        · simp only [h429, h400, ite_false, ite_true]
          by_cases hlast : (0 : Nat) = n + 1 - 1
          · simp [hlast]
          · simp only [hlast, ite_false]
            exact le_trans (by omega) (retryLoop_calls_mono t (n + 1) _ _ _ _ _)
        · simp [h429, h400]
    | exn msg =>
      by_cases hlast : (0 : Nat) = n + 1 - 1
      · simp [hlast]
      · simp only [hlast, ite_false]
        exact le_trans (by omega) (retryLoop_calls_mono t (n + 1) _ _ _ _ _)

/-- Claim C2 counterexample: with the default (empty) API key,
`fetchWithRetry` still invokes the transport — the claim's "no HTTP request"
fails for this operation. -/
theorem C2_counterexample :
    DEFAULT_SETTINGS.apiKey = ("") ∧
    (OpenRouterProvider.fetchWithRetry DEFAULT_SETTINGS (fun _ => .resp 200 none) 3 2000).calls
      = 1 :=
  ⟨rfl, rfl⟩

/-- Witness for C2 with the default settings. -/
theorem C2_witness :
    OpenRouterProvider.streamRequest DEFAULT_SETTINGS .abortError = (false, []) ∧
    OpenRouterProvider.fetchCredits DEFAULT_SETTINGS none = (false, none) ∧
    1 ≤ (OpenRouterProvider.fetchWithRetry DEFAULT_SETTINGS (fun _ => .resp 200 none)
          3 2000).calls :=
  C2_credential_guard DEFAULT_SETTINGS .abortError none (fun _ => .resp 200 none) 3 2000
    rfl (by norm_num)

/-- Claim C4: with `maxAttempts = 3`, a transport answering 429, 429, 200
succeeds after exactly 3 invocations with the second wait double the first
(each 429 consumes one attempt slot with ×2 delay growth); and a transport
answering 500, exception, 200 succeeds after 3 invocations with ×1.5 delay
growth for the non-429 failures. -/
theorem C4_retry_policy (d : ℚ) (s1 s2 : OpenRouterSettings) (t u : Nat → TResult)
    (j0 j1 j2 j3 j4 : Option Json) (e1 : String)
    (ht0 : t 0 = .resp 429 j0) (ht1 : t 1 = .resp 429 j1) (ht2 : t 2 = .resp 200 j2)
    (hu0 : u 0 = .resp 500 j3) (hu1 : u 1 = .exn e1) (hu2 : u 2 = .resp 200 j4) :
    OpenRouterProvider.fetchWithRetry s1 t 3 d
        = ⟨.success (stripThinkResp j2), 3, [d, d * 2]⟩ ∧
    OpenRouterProvider.fetchWithRetry s2 u 3 d
        = ⟨.success (stripThinkResp j4), 3, [d, d * (3 / 2)]⟩ := by
  constructor <;>
    simp [OpenRouterProvider.fetchWithRetry, retryLoop, ht0, ht1, ht2, hu0, hu1, hu2]

/-- Witness for C4 with initial delay 2000 ms: waits 2000 then 4000 on the
429 path, 2000 then 3000 on the generic path. -/
theorem C4_witness :
    OpenRouterProvider.fetchWithRetry DEFAULT_SETTINGS
        (fun i => if i < 2 then .resp 429 none else .resp 200 none) 3 2000
      = ⟨.success none, 3, [2000, 4000]⟩ ∧
    OpenRouterProvider.fetchWithRetry DEFAULT_SETTINGS
        (fun i => if i = 0 then .resp 500 none else if i = 1 then .exn ("boom")
                  else .resp 200 none) 3 2000
      = ⟨.success none, 3, [2000, 3000]⟩ := by
  have h := C4_retry_policy 2000 DEFAULT_SETTINGS DEFAULT_SETTINGS
    (fun i => if i < 2 then .resp 429 none else .resp 200 none)
    (fun i => if i = 0 then .resp 500 none else if i = 1 then .exn ("boom")
              else .resp 200 none)
    none none none none none ("boom") rfl rfl rfl rfl rfl rfl
  have e1 : (2000 : ℚ) * 2 = 4000 := by norm_num
  have e2 : (2000 : ℚ) * (3 / 2) = 3000 := by norm_num
  have e3 : stripThinkResp none = none := rfl
  rw [e1, e2, e3] at h
  exact h

/-- Claim C5 is wrong on the code (code bug): when the attempt at index
`maxAttempts - 1` hits HTTP 429, the loop waits, doubles the delay,
`continue`s, and falls off the end — the async call resolves `undefined`:
no response and no propagated error.  Exhausting with three 429s shows it. -/
theorem C5_final_429_swallowed :
    (OpenRouterProvider.fetchWithRetry DEFAULT_SETTINGS (fun _ => .resp 429 none) 3
        2000).outcome = RetryOutcome.noResult ∧
    (OpenRouterProvider.fetchWithRetry DEFAULT_SETTINGS (fun _ => .resp 429 none) 3
        2000).calls = 3 ∧
    (OpenRouterProvider.fetchWithRetry DEFAULT_SETTINGS (fun _ => .exn ("boom")) 3
        2000).outcome = RetryOutcome.failure ("boom") :=
  ⟨rfl, rfl, rfl⟩

/-! ### Favorites and model preferences -/

theorem addFavorite_nodup (s : OpenRouterSettings) (m : String) (ctx : Option Nat)
    (h : s.favoriteModels.Nodup) :
    ((OpenRouterProvider.addFavorite s m ctx).favoriteModels).Nodup := by
  unfold OpenRouterProvider.addFavorite
  by_cases hc : m ∈ s.favoriteModels
  · simpa [hc] using h
  · rw [if_neg (by simpa using hc)]
    rw [List.nodup_append]
    refine ⟨h, List.nodup_singleton m, ?_⟩
    intro a ha hmem
    rw [List.mem_singleton] at hmem
    subst hmem
    exact hc ha

theorem removeFavorite_nodup (s : OpenRouterSettings) (m : String)
    (h : s.favoriteModels.Nodup) :
    ((OpenRouterProvider.removeFavorite s m).favoriteModels).Nodup := by
  unfold OpenRouterProvider.removeFavorite
  exact h.filter _

theorem favOpStep_nodup (s : OpenRouterSettings) (op : FavOp)
    (h : s.favoriteModels.Nodup) : ((favOpStep s op).favoriteModels).Nodup := by
  cases op with
  | add m ctx => exact addFavorite_nodup s m ctx h
  | remove m => exact removeFavorite_nodup s m h

theorem applyFavOps_nodup (s : OpenRouterSettings) (ops : List FavOp)
    (h : s.favoriteModels.Nodup) : ((applyFavOps s ops).favoriteModels).Nodup := by
  induction ops generalizing s with
  | nil => exact h
  | cons op rest ih => exact ih (favOpStep s op) (favOpStep_nodup s op h)

theorem addFavorite_mem_noop (s : OpenRouterSettings) (m : String)
    (h : m ∈ s.favoriteModels) :
    (OpenRouterProvider.addFavorite s m none).favoriteModels = s.favoriteModels := by
  simp [OpenRouterProvider.addFavorite, h]

theorem addFavorite_new (s : OpenRouterSettings) (m : String)
    (h : m ∉ s.favoriteModels) :
    (OpenRouterProvider.addFavorite s m none).favoriteModels = s.favoriteModels ++ [m] := by
  simp [OpenRouterProvider.addFavorite, h]

/-- Claim C8: starting from the default settings, any sequence of
`addFavorite`/`removeFavorite` calls leaves the favorites duplicate-free;
adding the same id twice yields exactly one occurrence; removing an absent id
is a no-op (the settings, and hence the order of the entries, are untouched). -/
theorem C8_favorites_invariants (ops : List FavOp) (s : OpenRouterSettings) (m : String)
    (hs : s.favoriteModels.Nodup) (hm : m ∉ s.favoriteModels) :
    ((applyFavOps DEFAULT_SETTINGS ops).favoriteModels).Nodup ∧
    ((OpenRouterProvider.addFavorite (OpenRouterProvider.addFavorite s m none) m
        none).favoriteModels).count m = 1 ∧
    OpenRouterProvider.removeFavorite s m = s := by
  refine ⟨applyFavOps_nodup DEFAULT_SETTINGS ops (by decide), ?_, ?_⟩
  · have h1 := addFavorite_new s m hm
    have hmem2 : m ∈ (OpenRouterProvider.addFavorite s m none).favoriteModels := by
      rw [h1]; simp
    rw [addFavorite_mem_noop _ m hmem2, h1, List.count_append]
    have hz : s.favoriteModels.count m = 0 := by
      rw [List.count_eq_zero]
      exact hm
    simp [hz]
  · have hfil : List.filter (fun x => decide (x ≠ m)) s.favoriteModels = s.favoriteModels := by
      rw [List.filter_eq_self]
      intro a ha
      simp only [decide_eq_true_eq]
      exact fun heq => hm (heq ▸ ha)
    unfold OpenRouterProvider.removeFavorite
    rw [hfil]

/-- Witness for C8 with a concrete operation sequence. -/
theorem C8_witness :
    ((applyFavOps DEFAULT_SETTINGS
        [.add ("mistral/mistral-large") (some 32000), .remove ("openai/gpt-4o-mini"),
         .add ("mistral/mistral-large") none]).favoriteModels).Nodup ∧
    ((OpenRouterProvider.addFavorite (OpenRouterProvider.addFavorite DEFAULT_SETTINGS
        ("x/y") none) ("x/y") none).favoriteModels).count ("x/y") = 1 ∧
    OpenRouterProvider.removeFavorite DEFAULT_SETTINGS ("absent/id") = DEFAULT_SETTINGS :=
  C8_favorites_invariants
    [.add ("mistral/mistral-large") (some 32000), .remove ("openai/gpt-4o-mini"),
     .add ("mistral/mistral-large") none]
    DEFAULT_SETTINGS ("x/y") (by decide) (by decide)

/-- After `m[k] = v`, looking `k` up finds exactly `(k, v)`. -/
theorem assocSet_find (m : List (String × String)) (k v : String) :
    (assocSet m k v).find? (fun p => p.1 = k) = some (k, v) := by
  unfold assocSet
  by_cases ha : m.any (fun p => p.1 = k) = true
  · rw [if_pos ha]
    induction m with
    | nil => simp at ha
    | cons p ps ih =>
      by_cases hp : p.1 = k
      · simp [List.find?, hp]
      · rw [List.map_cons, if_neg (by simpa using hp)]
        rw [List.find?_cons_of_neg _ (by simpa using hp)]
        apply ih
        rcases List.any_eq_true.mp ha with ⟨q, hq, hqk⟩
        rcases List.mem_cons.mp hq with rfl | hq2
        · exact absurd (by simpa using hqk) hp
        · exact List.any_eq_true.mpr ⟨q, hq2, hqk⟩
  · rw [if_neg ha]
    induction m with
    | nil => simp [List.find?]
    | cons p ps ih =>
      have hp : ¬(p.1 = k) := by
        intro hpk
        exact ha (List.any_eq_true.mpr ⟨p, List.mem_cons_self p ps, by simpa using hpk⟩)
      rw [List.cons_append, List.find?_cons_of_neg _ (by simpa using hp)]
      apply ih
      intro ha2
      rcases List.any_eq_true.mp ha2 with ⟨q, hq, hqk⟩
      exact ha (List.any_eq_true.mpr ⟨q, List.mem_cons_of_mem p hq, hqk⟩)

/-- Claim C9 (amended): `setModel` then `getModel` round-trips for every
caller id and every NON-EMPTY model id (the empty string falls through the
`||` chain to the favorites default). -/
theorem C9_model_roundtrip (s : OpenRouterSettings) (pluginId modelId : String)
    (h : modelId ≠ "") :
    OpenRouterProvider.getModel (OpenRouterProvider.setModel s pluginId modelId) pluginId
      = modelId := by
  unfold OpenRouterProvider.getModel OpenRouterProvider.setModel
  rw [assocSet_find]
  simp [h]

/-- Claim C9 counterexample: storing the empty string does not round-trip —
`getModel` returns the first default favorite instead. -/
theorem C9_counterexample :
    OpenRouterProvider.getModel
        (OpenRouterProvider.setModel DEFAULT_SETTINGS ("some-plugin") ("")) ("some-plugin")
      = ("google/gemini-2.0-flash-exp:free") ∧
    OpenRouterProvider.getModel
        (OpenRouterProvider.setModel DEFAULT_SETTINGS ("some-plugin") ("")) ("some-plugin")
      ≠ ("") := by
  refine ⟨rfl, ?_⟩
  intro h
  have h0 : OpenRouterProvider.getModel
      (OpenRouterProvider.setModel DEFAULT_SETTINGS ("some-plugin") ("")) ("some-plugin")
      = ("google/gemini-2.0-flash-exp:free") := rfl
  rw [h0] at h
  exact absurd h (by decide)

/-- Witness for C9 at a concrete caller and model id. -/
theorem C9_witness :
    OpenRouterProvider.getModel
        (OpenRouterProvider.setModel DEFAULT_SETTINGS ("ai-flashcards")
          ("anthropic/claude-3-haiku")) ("ai-flashcards")
      = ("anthropic/claude-3-haiku") :=
  C9_model_roundtrip DEFAULT_SETTINGS ("ai-flashcards") ("anthropic/claude-3-haiku")
    (by decide)

/-- Witness for C6: two valid frames with one malformed line between them. -/
theorem C6_witness :
    StreamManager.streamRequest
        (.success ⟨200, (""), false, true, none,
          [utf8Encode (linesBlob
            [("data: \x7b\"choices\":[\x7b\"delta\":\x7b\"content\":\"Hi\"\x7d\x7d]\x7d"),
             ("data: notjson"),
             ("data: \x7b\"choices\":[\x7b\"delta\":\x7b\"content\":\"!\"\x7d\x7d]\x7d")])],
          .done⟩)
      = [CbEvent.token ("Hi"), CbEvent.token ("!"), CbEvent.complete ("Hi!")] := by
  have h := C6_malformed_lines_skipped
    [("data: \x7b\"choices\":[\x7b\"delta\":\x7b\"content\":\"Hi\"\x7d\x7d]\x7d"),
     ("data: notjson"),
     ("data: \x7b\"choices\":[\x7b\"delta\":\x7b\"content\":\"!\"\x7d\x7d]\x7d")]
    (fun l => deltaContentB l.data) ("") false none
    (by decide)
    (by
      intro l hl
      rcases List.mem_cons.mp hl with rfl | hl
      · exact Or.inl ⟨("Hi"), rfl, by decide, by decide, rfl, by decide⟩
      rcases List.mem_cons.mp hl with rfl | hl
      · exact Or.inr ⟨rfl, by decide, rfl⟩
      rcases List.mem_cons.mp hl with rfl | hl
      · exact Or.inl ⟨("!"), rfl, by decide, by decide, rfl, by decide⟩
      · exact absurd hl (List.not_mem_nil l))
  exact h.trans (by rfl)
